import Mathlib

/-!
# NavGrid: tiles and grid movement

A shallow embedding of `UNavTileComponent` (NavTileComponent.cpp) and
`UGridMovementComponent` (GridMovementComponent.cpp).

Conventions of the embedding

* A `float` value is the rational number it stands for; infinities and NaN are left out.
  The float operations the sources apply (`+`, `*`, `/`, the `FVector` operators,
  `FVector::Size`) are fields of the `Engine` record and no law is assumed of them, so
  that a theorem over every `Engine` holds of the rounded arithmetic of the program.
  Comparisons, `Min` and `Max` of floats are exact. `int32` values are integers wrapped
  to 32 bits.
* A non-null pointer to a tile is a `TileId`; the live tile objects are a total map
  `TileHeap` from identifiers to object states; a nullable pointer is an `Option`.
* Calls into the host engine (vector rotation, capsule sweeps, spline sampling) are
  fields of the `Engine` record too; every operation takes the record as a parameter.
* A virtual method whose overrides are not among the sources is taken as it comes:
  `GetPathPoints` as a parameter, the override of `GetContactPoints` by
  `UNavLadderComponent` as a member of the tile that says what the override returns.
* Loops whose exit depends on data take a fuel argument and fail with
  `Fault.OutOfFuel` when it runs out; a null dereference fails with `Fault.NullDereference`.
-/

namespace NavGrid

/-! ## Engine value types -/

/-- Engine vector `FVector`. -/
structure FVector where
  X : ℚ
  Y : ℚ
  Z : ℚ
deriving DecidableEq

instance : Add FVector := ⟨fun a b => ⟨a.X + b.X, a.Y + b.Y, a.Z + b.Z⟩⟩

instance : Sub FVector := ⟨fun a b => ⟨a.X - b.X, a.Y - b.Y, a.Z - b.Z⟩⟩

/-- The constant `FVector::ZeroVector`. -/
def FVector.ZeroVector : FVector := ⟨0, 0, 0⟩

/-- The geometric statement that the Euclidean length `sqrt (X*X + Y*Y + Z*Z)` of a vector
is below `m`, in exact arithmetic: a square root is below `m` exactly when `m` is positive
and the sum of squares is below `m * m` (see `SizeLess_iff_sqrt_lt`). The program's own
test is `Engine.VectorSize` compared with the bound. -/
def FVector.SizeLess (v : FVector) (m : ℚ) : Bool :=
  decide (0 < m ∧ v.X * v.X + v.Y * v.Y + v.Z * v.Z < m * m)

/-- Engine rotator `FRotator`, in degrees. -/
structure FRotator where
  Pitch : ℚ
  Yaw : ℚ
  Roll : ℚ
deriving DecidableEq

/-- Engine transform `FTransform`; its rotation is kept as the equivalent rotator. -/
structure FTransform where
  Location : FVector
  Rotation : FRotator
  Scale3D : FVector
deriving DecidableEq

/-- The collision capsule `UCapsuleComponent` of a pawn. -/
structure UCapsuleComponent where
  RelativeLocation : FVector
  Radius : ℚ
  HalfHeight : ℚ
  Owner : Nat
deriving DecidableEq

/-- Modelled from the spec: the declaration of the enumeration `EGridMovementMode` is not
among the sources, which name only its member `Walking`; every other member is `Other`. -/
inductive EGridMovementMode where
  | Walking
  | Other (tag : Nat)
deriving DecidableEq

/-- Ways in which a call does not return. -/
inductive Fault where
  | NullDereference
  | IndexOutOfRange
  | OutOfFuel
deriving DecidableEq

/-- Pointer to a live `UNavTileComponent`. -/
abbrev TileId := Nat

/-- The host platform: the engine's services used by the tile and the movement component,
and the float arithmetic of the program. -/
structure Engine where
  /-- The vector rotation `FRotator::RotateVector`. -/
  RotateVector : FRotator → FVector → FVector
  /-- The sweep `UWorld::SweepSingleByChannel(Start, End, ..)` on the pawn channel with the
  capsule's shape, ignoring the capsule's owner: true when something is hit. -/
  SweepSingleByChannel : FVector → FVector → UCapsuleComponent → Bool
  /-- The length `USplineComponent::GetSplineLength` of the spline through the points. -/
  GetSplineLength : List FVector → ℚ
  /-- The sample `USplineComponent::GetTransformAtDistanceAlongSpline`. -/
  GetTransformAtDistanceAlongSpline : List FVector → ℚ → FTransform
  /-- The float sum `a + b`. -/
  FloatPlus : ℚ → ℚ → ℚ
  /-- The float product `a * b`. -/
  FloatTimes : ℚ → ℚ → ℚ
  /-- The float quotient `a / b`. -/
  FloatQuotient : ℚ → ℚ → ℚ
  /-- The float that `x * c` yields for a float `x` and the double literal written `c` in
  the source: the product is taken in double precision and narrowed to a float. -/
  TimesDoubleLiteral : ℚ → ℚ → ℚ
  /-- The operator `FVector::operator+`. -/
  VectorPlus : FVector → FVector → FVector
  /-- The operator `FVector::operator-`. -/
  VectorMinus : FVector → FVector → FVector
  /-- The operator `FVector::operator*` with a float. -/
  VectorTimes : FVector → ℚ → FVector
  /-- The length `FVector::Size`. -/
  VectorSize : FVector → ℚ

/-! ## Machine integers -/

/-- Two's-complement wrap of an integer into the range of `int32`. -/
def wrapInt32 (i : Int) : Int := (i + 2147483648) % 4294967296 - 2147483648

/-- Conversion of a float to `int32`: truncation toward zero; a value out of range wraps. -/
def truncToInt32 (q : ℚ) : Int := wrapInt32 (if 0 ≤ q then ⌊q⌋ else ⌈q⌉)

/-- The function `FMath::Max`. -/
def FMath.Max (a b : ℚ) : ℚ := if a ≥ b then a else b

/-- The function `FMath::Min`. -/
def FMath.Min (a b : ℚ) : ℚ := if a ≤ b then a else b

/-- The function `FMath::Max3`. -/
def FMath.Max3 (a b c : ℚ) : ℚ := FMath.Max (FMath.Max a b) c

/-- The function `FMath::Min3`. -/
def FMath.Min3 (a b c : ℚ) : ℚ := FMath.Min (FMath.Min a b) c

/-! ## UNavTileComponent -/

/-- State of one `UNavTileComponent`: its pose and box extent as the engine reports them,
and the members the source file reads and writes. -/
structure UNavTileComponent where
  /-- Result of `GetWorld()`. -/
  World : Nat
  /-- Result of `GetComponentLocation()`. -/
  Location : FVector
  /-- Result of `GetComponentRotation()`. -/
  Rotation : FRotator
  /-- Result of `Extent->GetScaledBoxExtent()`. -/
  BoxExtent : FVector
  PawnLocationOffset : FVector
  Cost : ℚ
  ContactPoints : List FVector
  Neighbours : List TileId
  /-- For a `UNavLadderComponent`, whose override of the virtual `GetContactPoints` is not
  among the sources: the array the override returns. For a plain `UNavTileComponent`:
  `none`. -/
  ContactPointsOverride : Option (List FVector)
  /-- Search distance; `none` is `+infinity`. -/
  Distance : Option ℚ
  Backpointer : Option TileId
  Visited : Bool

/-- The live tile objects. -/
abbrev TileHeap := TileId → UNavTileComponent

/-- Method `UNavTileComponent::Traversable`. -/
def Traversable (t : UNavTileComponent) (MaxWalkAngle : ℚ)
    (AvailableMovementModes : List EGridMovementMode) : Bool :=
  let TileRot := t.Rotation
  let MaxAngle := FMath.Max3 TileRot.Pitch TileRot.Yaw TileRot.Roll
  let MinAngle := FMath.Min3 TileRot.Pitch TileRot.Yaw TileRot.Roll
  if AvailableMovementModes.contains EGridMovementMode.Walking &&
      (decide (MaxAngle < MaxWalkAngle) && decide (MinAngle > -MaxWalkAngle)) then
    true
  else
    false

/-- Method `UNavTileComponent::LegalPositionAtEndOfTurn`. -/
def LegalPositionAtEndOfTurn (t : UNavTileComponent) (MaxWalkAngle : ℚ)
    (AvailableMovementModes : List EGridMovementMode) : Bool :=
  Traversable t MaxWalkAngle AvailableMovementModes

/-- Method `UNavTileComponent::GetPawnLocation`. -/
def GetPawnLocation (E : Engine) (t : UNavTileComponent) : FVector :=
  E.VectorPlus t.Location (E.RotateVector t.Rotation t.PawnLocationOffset)

/-- Method `UNavTileComponent::ResetPath`. -/
def ResetPath (t : UNavTileComponent) : UNavTileComponent :=
  { t with Distance := none, Backpointer := none, Visited := false }

/-- Inner loop of `GetContactPoints`:
`for (int32 Y = ..; Y <= YExtent; Y += YExtent) ContactPoints.Add(..)`. -/
def GetContactPoints_loopY (E : Engine) (t : UNavTileComponent) (X YExtent : Int) :
    Nat → Int → List FVector → Except Fault (List FVector)
  | 0, _, _ => .error Fault.OutOfFuel
  | fuel + 1, Y, pts =>
    if Y ≤ YExtent then
      let PointLocation := E.RotateVector t.Rotation ⟨(X : ℚ), (Y : ℚ), 0⟩
      let WorldLocation := E.VectorPlus t.Location PointLocation
      GetContactPoints_loopY E t X YExtent fuel (wrapInt32 (Y + YExtent)) (pts ++ [WorldLocation])
    else .ok pts

/-- Outer loop of `GetContactPoints`:
`for (int32 X = ..; X <= XExtent; X += XExtent) { inner loop }`. -/
def GetContactPoints_loopX (E : Engine) (t : UNavTileComponent) (XExtent YExtent : Int) :
    Nat → Int → List FVector → Except Fault (List FVector)
  | 0, _, _ => .error Fault.OutOfFuel
  | fuel + 1, X, pts =>
    if X ≤ XExtent then
      match GetContactPoints_loopY E t X YExtent fuel (wrapInt32 (-YExtent)) pts with
      | .error e => .error e
      | .ok pts1 => GetContactPoints_loopX E t XExtent YExtent fuel (wrapInt32 (X + XExtent)) pts1
    else .ok pts

/-- Method `UNavTileComponent::GetContactPoints`, the definition of the base class: the
tile after the call and the array the returned pointer designates. -/
def GetContactPoints (E : Engine) (fuel : Nat) (t : UNavTileComponent) :
    Except Fault (UNavTileComponent × List FVector) :=
  if t.ContactPoints.length = 0 then
    let XExtent := truncToInt32 t.BoxExtent.X
    let YExtent := truncToInt32 t.BoxExtent.Y
    match GetContactPoints_loopX E t XExtent YExtent fuel (wrapInt32 (-XExtent)) t.ContactPoints with
    | .error e => .error e
    | .ok pts => .ok ({ t with ContactPoints := pts }, pts)
  else .ok (t, t.ContactPoints)

/-- The virtual call `T->GetContactPoints()` through a pointer `T`: the override on a
ladder, the definition of the base class on a plain tile. -/
def GetContactPointsAt (E : Engine) (fuel : Nat) (heap : TileHeap) (T : TileId) :
    Except Fault (TileHeap × List FVector) :=
  match (heap T).ContactPointsOverride with
  | some pts => .ok (heap, pts)
  | none =>
    match GetContactPoints E fuel (heap T) with
    | .error e => .error e
    | .ok (t1, pts) => .ok (Function.update heap T t1, pts)

/-- The two inner loops of `GetNeighbours` over `*Itr->GetContactPoints()` and
`*GetContactPoints()`: the heap afterwards and the value of `Added`. -/
def GetNeighbours_scan (E : Engine) (fuel : Nat) (This : TileId) (MaxDistance : ℚ) :
    TileHeap → List FVector → Except Fault (TileHeap × Bool)
  | heap, [] => .ok (heap, false)
  | heap, OtherCP :: rest =>
    match GetContactPointsAt E fuel heap This with
    | .error e => .error e
    | .ok (heap1, MyCPs) =>
      if MyCPs.any (fun MyCP =>
          decide (E.VectorSize (E.VectorMinus OtherCP MyCP) < MaxDistance)) then
        .ok (heap1, true)
      else GetNeighbours_scan E fuel This MaxDistance heap1 rest

/-- The loop `for (TObjectIterator<UNavTileComponent> Itr; Itr; ++Itr)` of `GetNeighbours`
over the objects the iterator enumerates. -/
def GetNeighbours_loop (E : Engine) (fuel : Nat) (This : TileId) (MaxDistance : ℚ) :
    TileHeap → List TileId → Except Fault TileHeap
  | heap, [] => .ok heap
  | heap, Itr :: rest =>
    if (heap Itr).World = (heap This).World ∧ Itr ≠ This then
      match GetContactPointsAt E fuel heap Itr with
      | .error e => .error e
      | .ok (heap1, OtherCPs) =>
        match GetNeighbours_scan E fuel This MaxDistance heap1 OtherCPs with
        | .error e => .error e
        | .ok (heap2, Added) =>
          if Added then
            GetNeighbours_loop E fuel This MaxDistance
              (Function.update heap2 This
                { heap2 This with Neighbours := (heap2 This).Neighbours ++ [Itr] }) rest
          else GetNeighbours_loop E fuel This MaxDistance heap2 rest
    else GetNeighbours_loop E fuel This MaxDistance heap rest

/-- Method `UNavTileComponent::GetNeighbours`, called on `This` while the object iterator
enumerates `Objects`: the heap after the call and the returned array. -/
def GetNeighbours (E : Engine) (Objects : List TileId) (fuel : Nat) (heap : TileHeap)
    (This : TileId) : Except Fault (TileHeap × List TileId) :=
  let MaxDistance := E.TimesDoubleLiteral (heap This).BoxExtent.X (9 / 10)
  if (heap This).Neighbours.length = 0 then
    match GetNeighbours_loop E fuel This MaxDistance heap Objects with
    | .error e => .error e
    | .ok heap1 => .ok (heap1, (heap1 This).Neighbours)
  else .ok (heap, (heap This).Neighbours)

/-- Method `UNavTileComponent::Obstructed(From, To, CollisionCapsule)`. -/
def Obstructed3 (E : Engine) (From To : FVector) (CollisionCapsule : UCapsuleComponent) : Bool :=
  let Start := E.VectorPlus From CollisionCapsule.RelativeLocation
  let End := E.VectorPlus To CollisionCapsule.RelativeLocation
  let HitSomething := E.SweepSingleByChannel Start End CollisionCapsule
  HitSomething

/-- Method `UNavTileComponent::Obstructed(FromPos, CollisionCapsule)`. -/
def Obstructed (E : Engine) (t : UNavTileComponent) (FromPos : FVector)
    (CollisionCapsule : UCapsuleComponent) : Bool :=
  Obstructed3 E FromPos (E.VectorPlus t.PawnLocationOffset t.Location) CollisionCapsule

/-- Method `UNavTileComponent::GetUnobstructedNeighbours`, called on `This`: the heap after
the call and the contents of `OutNeighbours`, which held `OutNeighbours` before the call. -/
def GetUnobstructedNeighbours (E : Engine) (Objects : List TileId) (fuel : Nat)
    (heap : TileHeap) (This : TileId) (CollisionCapsule : UCapsuleComponent)
    (OutNeighbours : List TileId) : Except Fault (TileHeap × List TileId) :=
  let Emptied : List TileId := OutNeighbours.take 0
  match GetNeighbours E Objects fuel heap This with
  | .error e => .error e
  | .ok (heap1, Ns) =>
    .ok (heap1, Emptied ++ Ns.filter (fun N =>
      !Obstructed E (heap1 N)
        (E.VectorPlus (heap1 This).PawnLocationOffset (heap1 This).Location)
        CollisionCapsule))

/-! ## UGridMovementComponent -/

/-- The grid actor `ANavGrid`, whose source file is not among the sources: its two queries
are taken as they come. `TilesInRange` receives the tiles, the start tile, the range, the
obstruction flag and the capsule, and yields the tiles with their search state filled in
and the array `InRange`. -/
structure ANavGrid where
  GetTile : FVector → Option TileId
  TilesInRange : TileHeap → TileId → ℚ → Bool → Option UCapsuleComponent →
    Except Fault (TileHeap × List TileId)

/-- State of one `UGridMovementComponent` and of the actor that owns it. -/
structure UGridMovementComponent where
  /-- The pointer `Grid`; `none` is the null pointer. -/
  Grid : Option ANavGrid
  /-- The points of `Spline`. -/
  SplinePoints : List FVector
  /-- The points `(InVal, OutVal)` of the curve `UpVectors`. -/
  UpVectors : List (ℚ × FVector)
  Moving : Bool
  Distance : ℚ
  MaxSpeed : ℚ
  MovementRange : ℚ
  Velocity : FVector
  LockRoll : Bool
  LockPitch : Bool
  LockYaw : Bool
  /-- The transform of the owning actor. -/
  OwnerTransform : FTransform
  /-- The capsule of the owner when the owner is an `AGridPawn`, else `none`. -/
  OwnerCapsule : Option UCapsuleComponent
  /-- Number of broadcasts of `OnMovementEndEvent` so far. -/
  MovementEndBroadcasts : Nat

/-- The virtual method `UNavTileComponent::GetPathPoints(FromPos, OutPathPoints,
OutUpVectors)`, whose definitions are not among the sources: the two arrays it fills. -/
abbrev PathPointsMethod := TileHeap → TileId → FVector → List FVector × List FVector

/-- The engine method `FInterpCurve::AddPoint`: the new point goes before the first point
whose `InVal` is not below the new one. -/
def InterpCurve_AddPoint (Points : List (ℚ × FVector)) (InVal : ℚ) (OutVal : FVector) :
    List (ℚ × FVector) :=
  Points.takeWhile (fun p => decide (p.1 < InVal)) ++ (InVal, OutVal) ::
    Points.dropWhile (fun p => decide (p.1 < InVal))

/-- The world location `T->PawnLocationOffset->GetComponentLocation()` that
GridMovementComponent.cpp reads: the position of the offset attached to the tile, which
is the position `GetPawnLocation` computes. -/
def PawnLocationOffset_GetComponentLocation (E : Engine) (t : UNavTileComponent) : FVector :=
  GetPawnLocation E t

/-- Method `UGridMovementComponent::TickComponent`. -/
def TickComponent (E : Engine) (c : UGridMovementComponent) (DeltaTime : ℚ) :
    UGridMovementComponent :=
  if c.Moving then
    let Distance := FMath.Min (E.GetSplineLength c.SplinePoints)
      (E.FloatPlus c.Distance (E.FloatTimes c.MaxSpeed DeltaTime))
    let OldTransform := c.OwnerTransform
    let NewTransform := E.GetTransformAtDistanceAlongSpline c.SplinePoints Distance
    let Rotation := NewTransform.Rotation
    let Rotation : FRotator :=
      { Roll := if c.LockRoll then 0 else Rotation.Roll
        Pitch := if c.LockPitch then 0 else Rotation.Pitch
        Yaw := if c.LockYaw then 0 else Rotation.Yaw }
    let NewTransform := { NewTransform with Rotation := Rotation }
    let c1 := { c with Distance := Distance, OwnerTransform := NewTransform }
    if Distance ≥ E.GetSplineLength c.SplinePoints then
      { c1 with
        Moving := false
        Distance := 0
        Velocity := FVector.ZeroVector
        MovementEndBroadcasts := c1.MovementEndBroadcasts + 1 }
    else
      { c1 with
        Velocity := E.VectorTimes (E.VectorMinus NewTransform.Location OldTransform.Location)
          (E.FloatQuotient 1 DeltaTime) }
  else c

/-- The loop `while (Current) { Path.Add(Current); Current = Current->Backpointer; }` of
`CreatePath`. -/
def CreatePath_walk (heap : TileHeap) : Nat → Option TileId → List TileId →
    Except Fault (List TileId)
  | 0, _, _ => .error Fault.OutOfFuel
  | _ + 1, none, Path => .ok Path
  | fuel + 1, some Current, Path =>
    CreatePath_walk heap fuel (heap Current).Backpointer (Path ++ [Current])

/-- The loop over `PIdx` of `CreatePath`, from index `PIdx` on: the spline points and the
up-vector curve afterwards. `Ups[PIdx]` past the end of `Ups` is a fault. -/
def CreatePath_addPoints (E : Engine) (Ups : List FVector) :
    List FVector → Nat → List FVector × List (ℚ × FVector) →
    Except Fault (List FVector × List (ℚ × FVector))
  | [], _, s => .ok s
  | Point :: rest, PIdx, (SplinePoints, UpVectors) =>
    let SplinePoints1 := SplinePoints ++ [Point]
    match Ups.get? PIdx with
    | none => .error Fault.IndexOutOfRange
    | some Up =>
      CreatePath_addPoints E Ups rest (PIdx + 1)
        (SplinePoints1, InterpCurve_AddPoint UpVectors (E.GetSplineLength SplinePoints1) Up)

/-- The loop over `Idx` of `CreatePath`: `Prev` is `Path[Idx - 1]` and the list holds
`Path[Idx]` and the tiles after it. -/
def CreatePath_addTiles (E : Engine) (GetPathPoints : PathPointsMethod) (heap : TileHeap) :
    TileId → List TileId → List FVector × List (ℚ × FVector) →
    Except Fault (List FVector × List (ℚ × FVector))
  | _, [], s => .ok s
  | Prev, Cur :: rest, s =>
    let (Points, Ups) :=
      GetPathPoints heap Cur (PawnLocationOffset_GetComponentLocation E (heap Prev))
    match CreatePath_addPoints E Ups Points 0 s with
    | .error e => .error e
    | .ok s1 => CreatePath_addTiles E GetPathPoints heap Cur rest s1

/-- Method `UGridMovementComponent::CreatePath`: the returned flag, the tiles and the
component after the call. -/
def CreatePath (E : Engine) (GetPathPoints : PathPointsMethod) (fuel : Nat) (heap : TileHeap)
    (c : UGridMovementComponent) (Target : TileId) :
    Except Fault (Bool × TileHeap × UGridMovementComponent) :=
  let c1 := { c with SplinePoints := [], UpVectors := [] }
  match c1.Grid with
  | none => .error Fault.NullDereference
  | some Grid =>
    match Grid.GetTile c1.OwnerTransform.Location with
    | none => .ok (false, heap, c1)
    | some Location =>
      let Searched :=
        match c1.OwnerCapsule with
        | some Capsule => Grid.TilesInRange heap Location c1.MovementRange true (some Capsule)
        | none => Grid.TilesInRange heap Location c1.MovementRange false none
      match Searched with
      | .error e => .error e
      | .ok (heap1, InRange) =>
        if InRange.contains Target then
          match CreatePath_walk heap1 fuel (some Target) [] with
          | .error e => .error e
          | .ok Walked =>
            let Path := Walked.reverse
            let SplinePoints1 :=
              c1.SplinePoints ++ [PawnLocationOffset_GetComponentLocation E (heap1 Location)]
            match CreatePath_addTiles E GetPathPoints heap1 (Path.headD Target) (Path.drop 1)
                (SplinePoints1, c1.UpVectors) with
            | .error e => .error e
            | .ok (SplinePoints2, UpVectors2) =>
              .ok (true, heap1, { c1 with SplinePoints := SplinePoints2, UpVectors := UpVectors2 })
        else .ok (false, heap1, c1)

/-- Method `UGridMovementComponent::FollowPath`. -/
def FollowPath (c : UGridMovementComponent) : UGridMovementComponent :=
  { c with Moving := true }

/-- Method `UGridMovementComponent::MoveTo`. -/
def MoveTo (E : Engine) (GetPathPoints : PathPointsMethod) (fuel : Nat) (heap : TileHeap)
    (c : UGridMovementComponent) (Target : TileId) :
    Except Fault (Bool × TileHeap × UGridMovementComponent) :=
  match CreatePath E GetPathPoints fuel heap c Target with
  | .error e => .error e
  | .ok (PathExists, heap1, c1) =>
    if PathExists then .ok (PathExists, heap1, FollowPath c1) else .ok (PathExists, heap1, c1)

/-- Modelled from the spec: the default `GetPathPoints`, whose definition is not among the
sources: "emits a single point at this tile's resting location with up-vector (0,0,1)". -/
def GetPathPoints_default (E : Engine) : PathPointsMethod :=
  fun heap T _ => ([GetPawnLocation E (heap T)], [⟨0, 0, 1⟩])

/-! ## The range search of the grid

`ANavGrid::TilesInRange` is defined in a source file that is not among the sources. The
definitions of this section follow section 4.3 of the specification. -/

/-- The comparison `a < d` of a finite value with a search distance, `none` being
`+infinity`. -/
def ltDistance (a : ℚ) (d : Option ℚ) : Bool :=
  match d with
  | none => true
  | some x => decide (a < x)

/-- The comparison `d1 <= d2` of two search distances, `none` being `+infinity`. -/
def leDistance (d1 d2 : Option ℚ) : Bool :=
  match d1, d2 with
  | _, none => true
  | none, some _ => false
  | some x, some y => decide (x ≤ y)

/-- Modelled from the spec: the selection step of `ANavGrid::TilesInRange`, which is not
among the sources: "select the unvisited in-range tile with smallest tentative distance";
among tiles at the same distance the one that entered the in-range set first is taken. -/
def TilesInRange_select (heap : TileHeap) : List TileId → Option TileId
  | [] => none
  | T :: rest =>
    if (heap T).Visited then TilesInRange_select heap rest
    else
      match TilesInRange_select heap rest with
      | none => some T
      | some B => if leDistance (heap T).Distance (heap B).Distance then some T else some B

/-- Modelled from the spec: the relaxation step of `ANavGrid::TilesInRange`, which is not
among the sources, over the neighbours of `Current`: "a neighbour's tentative distance is
current.distance + neighbour.cost; if this is smaller than the neighbour's current distance
AND <= range, update the neighbour's distance and set its backpointer to the current tile,
and add it to the in-range set if newly reached". -/
def TilesInRange_relax (Range : ℚ) (Current : TileId) :
    TileHeap × List TileId → List TileId → TileHeap × List TileId
  | s, [] => s
  | (heap, InRange), N :: rest =>
    match (heap Current).Distance with
    | none => TilesInRange_relax Range Current (heap, InRange) rest
    | some CurrentDistance =>
      let Tentative := CurrentDistance + (heap N).Cost
      if ltDistance Tentative (heap N).Distance && decide (Tentative ≤ Range) then
        TilesInRange_relax Range Current
          (Function.update heap N
            { heap N with Distance := some Tentative, Backpointer := some Current },
           if InRange.contains N then InRange else InRange ++ [N]) rest
      else TilesInRange_relax Range Current (heap, InRange) rest

/-- Modelled from the spec: the main loop of `ANavGrid::TilesInRange`, which is not among
the sources: "repeatedly select the unvisited in-range tile with smallest tentative
distance, mark visited, and relax each of its (optionally obstruction-filtered)
neighbours ... Terminates when no unvisited reachable tile remains within range".
`NeighboursOf` gives the neighbours a tile answers with, filtered or not. -/
def TilesInRange_loop (NeighboursOf : TileId → List TileId) (Range : ℚ) :
    Nat → TileHeap × List TileId → Except Fault (TileHeap × List TileId)
  | 0, _ => .error Fault.OutOfFuel
  | fuel + 1, (heap, InRange) =>
    match TilesInRange_select heap InRange with
    | none => .ok (heap, InRange)
    | some Current =>
      TilesInRange_loop NeighboursOf Range fuel
        (TilesInRange_relax Range Current
          (Function.update heap Current { heap Current with Visited := true }, InRange)
          (NeighboursOf Current))

/-- Modelled from the spec: the range search `ANavGrid::TilesInRange`, which is not among
the sources: the search state of every tile is reset with `ResetPath` ("search state is
reset to a canonical unvisited baseline before every new search"), the start tile gets
distance 0 and is the first tile in range, and the main loop runs. The result is the tiles
with their search state and the in-range set. -/
def TilesInRange_spec (NeighboursOf : TileId → List TileId) (fuel : Nat) (heap : TileHeap)
    (Start : TileId) (Range : ℚ) : Except Fault (TileHeap × List TileId) :=
  let heap0 : TileHeap := fun T => ResetPath (heap T)
  TilesInRange_loop NeighboursOf Range fuel
    (Function.update heap0 Start { heap0 Start with Distance := some 0 }, [Start])

/-- A chain of backpointers from a tile down to `Start`: the list begins with the tile,
each element's `Backpointer` is the next element, and the last element is `Start`. -/
inductive BackChain (heap : TileHeap) (Start : TileId) : TileId → List TileId → Prop where
  | root : BackChain heap Start Start [Start]
  | step (v p : TileId) (R : List TileId) :
      (heap v).Backpointer = some p → BackChain heap Start p R →
      BackChain heap Start v (v :: R)

/-- The invariant of the main loop of the range search. -/
structure SearchInv (Start : TileId) (heap : TileHeap) (InRange : List TileId) : Prop where
  cost_nonneg : ∀ t, 0 ≤ (heap t).Cost
  start_bp : (heap Start).Backpointer = none
  start_dist : (heap Start).Distance = some 0
  dist_nonneg : ∀ t d, (heap t).Distance = some d → 0 ≤ d
  finite_mem : ∀ t d, (heap t).Distance = some d → t ∈ InRange
  mem_finite : ∀ t, t ∈ InRange → ∃ d, (heap t).Distance = some d
  visited_finite : ∀ v, (heap v).Visited = true → ∃ d, (heap v).Distance = some d
  visited_le : ∀ v u dv du, (heap v).Visited = true → (heap u).Visited = false →
    (heap v).Distance = some dv → (heap u).Distance = some du → dv ≤ du
  visited_chain : ∀ v, (heap v).Visited = true →
    ∃ R, BackChain heap Start v R ∧ ∀ x, x ∈ R → (heap x).Visited = true
  mem_bp : ∀ t, t ∈ InRange →
    t = Start ∨ ∃ p, (heap t).Backpointer = some p ∧ (heap p).Visited = true

/-- The invariant of the relaxation of the neighbours of `Current`, which is visited and at
distance `dc`, the largest distance of a visited tile. -/
structure RelaxInv (Start Current : TileId) (dc : ℚ) (heap : TileHeap)
    (InRange : List TileId) : Prop where
  inv : SearchInv Start heap InRange
  cur_visited : (heap Current).Visited = true
  cur_dist : (heap Current).Distance = some dc
  visited_le_cur : ∀ v, (heap v).Visited = true → ∃ dv, (heap v).Distance = some dv ∧ dv ≤ dc

/-- The neighbours of the row scene: the tiles before and after, among tiles 0, 1, 2. -/
def rowNeighbours : TileId → List TileId
  | 0 => [1]
  | 1 => [0, 2]
  | 2 => [1]
  | _ => []

/-! ## Binary floating point

The arithmetic of IEEE 754 with rounding to nearest, ties to even: an operation yields the
exact result rounded to a significand of `p` bits, 24 for `float` and 53 for `double`.
The exponent is not bounded: overflow and gradual underflow are left out. -/

/-- The integer nearest to `m`, the even one of two at equal distance. -/
def roundHalfEven (m : ℚ) : Int :=
  if m - ⌊m⌋ < 1 / 2 then ⌊m⌋
  else if 1 / 2 < m - ⌊m⌋ then ⌊m⌋ + 1
  else if ⌊m⌋ % 2 = 0 then ⌊m⌋ else ⌊m⌋ + 1

/-- Number of halvings that bring `x`, at least 1, below 2, added to `e`. -/
def exponentUp : Nat → ℚ → Int → Int
  | 0, _, e => e
  | n + 1, x, e => if x < 2 then e else exponentUp n (x / 2) (e + 1)

/-- Number of doublings that bring `x`, positive and below 1, to 1 or more, taken off
`e`. -/
def exponentDown : Nat → ℚ → Int → Int
  | 0, _, e => e
  | n + 1, x, e => if 1 ≤ x then e else exponentDown n (x * 2) (e - 1)

/-- The binary exponent of a non-zero `q`: the `e` with `2^e <= |q| < 2^(e+1)`, for
exponents up to 1100 in size. -/
def binaryExponent (q : ℚ) : Int :=
  if 1 ≤ |q| then exponentUp 1100 |q| 0 else exponentDown 1100 |q| 0

/-- The number with a significand of `p` bits nearest to `q`. -/
def roundBinary (p : Nat) (q : ℚ) : ℚ :=
  if q = 0 then 0
  else (roundHalfEven (q / (2 : ℚ) ^ (binaryExponent q - ((p : Int) - 1))) : ℚ) *
    (2 : ℚ) ^ (binaryExponent q - ((p : Int) - 1))

/-- Bisection for the integer square root: the invariant is `lo * lo <= n < hi * hi`. -/
def natSqrtLoop (n : Nat) : Nat → Nat → Nat → Nat
  | 0, lo, _ => lo
  | fuel + 1, lo, hi =>
    if hi ≤ lo + 1 then lo
    else if ((lo + hi) / 2) * ((lo + hi) / 2) ≤ n then natSqrtLoop n fuel ((lo + hi) / 2) hi
    else natSqrtLoop n fuel lo ((lo + hi) / 2)

/-- The number with a significand of `p` bits nearest to the square root of `s`; 0 for a
negative `s`. -/
def sqrtBinary (p : Nat) (s : ℚ) : ℚ :=
  if s ≤ 0 then 0
  else
    let e : Int := Int.fdiv (binaryExponent s) 2
    let u : ℚ := (2 : ℚ) ^ (e - ((p : Int) - 1))
    let t : ℚ := s / (u * u)
    let k : Nat := natSqrtLoop ⌊t⌋.toNat (2 * p + 4) 0 (⌊t⌋.toNat + 1)
    let h : ℚ := (k : ℚ) + 1 / 2
    let r : Nat :=
      if t < h * h then k else if h * h < t then k + 1 else if k % 2 = 0 then k else k + 1
    (r : ℚ) * u

/-- The `float` nearest to `q`. -/
def toFloat (q : ℚ) : ℚ := roundBinary 24 q

/-- The `double` nearest to `q`. -/
def toDouble (q : ℚ) : ℚ := roundBinary 53 q

/-! ## A scene on the X axis

Unrotated tiles with half-extent 100 in a row along the X axis, a grid that resolves
every position to the first tile and reaches the first two tiles, and a pawn's movement
component. The engine instance computes in single precision. Rotation by the zero rotator
is the identity, rotation by a yaw of 90 degrees maps `(x, y, z)` to `(-y, x, z)`, and a
spline through points in a row along X has the length of the polyline and is sampled along
it. A post stands at `(10, 0, 0)`: it blocks the sweeps that start on it. -/

/-- Length of the polyline through points laid out along the X axis. -/
def rowLength : List FVector → ℚ
  | a :: b :: rest => |b.X - a.X| + rowLength (b :: rest)
  | _ => 0

/-- The engine on the row scene. -/
def rowEngine : Engine where
  RotateVector := fun r v => if r = ⟨0, 90, 0⟩ then ⟨-v.Y, v.X, v.Z⟩ else v
  SweepSingleByChannel := fun Start _ _ => decide (Start = ⟨10, 0, 0⟩)
  GetSplineLength := rowLength
  GetTransformAtDistanceAlongSpline := fun pts d =>
    { Location := ⟨(pts.headD FVector.ZeroVector).X + d, 0, 0⟩
      Rotation := ⟨0, 0, 0⟩
      Scale3D := ⟨1, 1, 1⟩ }
  FloatPlus := fun a b => toFloat (a + b)
  FloatTimes := fun a b => toFloat (a * b)
  FloatQuotient := fun a b => toFloat (a / b)
  TimesDoubleLiteral := fun x c => toFloat (toDouble (x * toDouble c))
  VectorPlus := fun a b => ⟨toFloat (a.X + b.X), toFloat (a.Y + b.Y), toFloat (a.Z + b.Z)⟩
  VectorMinus := fun a b => ⟨toFloat (a.X - b.X), toFloat (a.Y - b.Y), toFloat (a.Z - b.Z)⟩
  VectorTimes := fun v k => ⟨toFloat (v.X * k), toFloat (v.Y * k), toFloat (v.Z * k)⟩
  VectorSize := fun v =>
    sqrtBinary 24
      (toFloat (toFloat (toFloat (v.X * v.X) + toFloat (v.Y * v.Y)) + toFloat (v.Z * v.Z)))

/-- The unrotated tile of the row scene centred at `(x, 0, 0)`. -/
def rowTile (x : ℚ) : UNavTileComponent where
  World := 0
  Location := ⟨x, 0, 0⟩
  Rotation := ⟨0, 0, 0⟩
  BoxExtent := ⟨100, 100, 5⟩
  PawnLocationOffset := ⟨0, 0, 0⟩
  Cost := 1
  ContactPoints := []
  Neighbours := []
  ContactPointsOverride := none
  Distance := none
  Backpointer := none
  Visited := false

/-- The tiles of the row scene: tile `i` is centred at `(200 * i, 0, 0)`. -/
def rowHeap : TileHeap := fun i => rowTile (200 * (i : ℚ))

/-- The row scene with tile 0 turned by a yaw of 90 degrees and the pawn resting 10 units
off its centre along the tile's own X axis. -/
def turnedHeap : TileHeap :=
  Function.update rowHeap 0
    { rowTile 0 with Rotation := ⟨0, 90, 0⟩, PawnLocationOffset := ⟨10, 0, 0⟩ }

/-- A tile like those of the row scene with half-extents 1 in X and Y. -/
def unitTile (x : ℚ) : UNavTileComponent :=
  { rowTile x with BoxExtent := ⟨1, 1, 5⟩ }

/-- Two tiles with half-extent 1: tile 0 centred at `(-2, 0, 0)` and every other tile
centred at `(x, 0, 0)` with `x` the float 0.9, so that the facing edges are the float 0.9
apart. -/
def thresholdHeap : TileHeap :=
  fun i => if i = 0 then unitTile (-2) else unitTile (7549747 / 8388608)

/-- The row scene with the Y half-extent of tile 1 shrunk to one half. -/
def thinHeap : TileHeap :=
  Function.update rowHeap 1 { rowTile 200 with BoxExtent := ⟨100, 1 / 2, 5⟩ }

/-- A thin capsule attached at its owner's origin. -/
def rowCapsule : UCapsuleComponent where
  RelativeLocation := ⟨0, 0, 0⟩
  Radius := 1
  HalfHeight := 80
  Owner := 0

/-- The filter of the neighbour list `Ns` of `This` that sweeps the capsule from the resting
position of `This` to the resting position of each neighbour, a resting position being
the one `GetPawnLocation` returns. -/
def unobstructedBetweenPawnLocations (E : Engine) (heap : TileHeap) (This : TileId)
    (CollisionCapsule : UCapsuleComponent) (Ns : List TileId) : List TileId :=
  Ns.filter (fun N =>
    !Obstructed3 E (GetPawnLocation E (heap This)) (GetPawnLocation E (heap N))
      CollisionCapsule)

/-- Two `GetNeighbours` calls on `This` in a row, the object iterator enumerating
`Objects1` during the first and `Objects2` during the second: the two returned lists. -/
def GetNeighbours_twice (E : Engine) (Objects1 Objects2 : List TileId) (fuel : Nat)
    (heap : TileHeap) (This : TileId) : Except Fault (List TileId × List TileId) :=
  match GetNeighbours E Objects1 fuel heap This with
  | .error e => .error e
  | .ok (heap1, L1) =>
    match GetNeighbours E Objects2 fuel heap1 This with
    | .error e => .error e
    | .ok (_, L2) => .ok (L1, L2)

/-- A grid for the row scene whose range search reaches tiles 0 and 1 from tile 0. -/
def rowGrid : ANavGrid where
  GetTile := fun _ => some 0
  TilesInRange := fun heap _ _ _ _ =>
    .ok (Function.update
      (Function.update heap 0 { heap 0 with Distance := some 0, Visited := true })
      1 { heap 1 with Distance := some 1, Backpointer := some 0, Visited := true }, [0, 1])

/-- A grid on which no position resolves to a tile. -/
def emptyGrid : ANavGrid where
  GetTile := fun _ => none
  TilesInRange := fun heap _ _ _ _ => .ok (heap, [])

/-- A movement component that has travelled 100 along a curve from tile 0 over tile 1 to
tile 2. -/
def rowMover (Grid : Option ANavGrid) : UGridMovementComponent where
  Grid := Grid
  SplinePoints := [⟨0, 0, 0⟩, ⟨200, 0, 0⟩, ⟨400, 0, 0⟩]
  UpVectors := [(200, ⟨0, 0, 1⟩), (400, ⟨0, 0, 1⟩)]
  Moving := true
  Distance := 100
  MaxSpeed := 50
  MovementRange := 4
  Velocity := ⟨50, 0, 0⟩
  LockRoll := false
  LockPitch := false
  LockYaw := false
  OwnerTransform := { Location := ⟨100, 0, 0⟩, Rotation := ⟨0, 0, 0⟩, Scale3D := ⟨1, 1, 1⟩ }
  OwnerCapsule := none
  MovementEndBroadcasts := 0

/-- The row-scene component with speed 1 after travelling the float 399.9 of the 400 of
its curve. -/
def nearEndMover : UGridMovementComponent :=
  { rowMover none with Distance := 13103923 / 32768, MaxSpeed := 1 }

/-- The float 0.1. -/
def floatTenth : ℚ := 13421773 / 134217728

/-- The owner's location after a `CreatePath` or `MoveTo` call followed by one tick of
`DeltaTime`. -/
def locationAfterTick (E : Engine)
    (r : Except Fault (Bool × TileHeap × UGridMovementComponent)) (DeltaTime : ℚ) :
    Except Fault FVector :=
  match r with
  | .error e => .error e
  | .ok (_, _, c) => .ok (TickComponent E c DeltaTime).OwnerTransform.Location

/-- What a caller observes of a `CreatePath` or `MoveTo` call: the returned flag, the spline
points, the up-vector curve, the `Moving` flag and the travelled `Distance` afterwards. -/
def observe (r : Except Fault (Bool × TileHeap × UGridMovementComponent)) :
    Except Fault (Bool × List FVector × List (ℚ × FVector) × Bool × ℚ) :=
  match r with
  | .error e => .error e
  | .ok (b, _, c) => .ok (b, c.SplinePoints, c.UpVectors, c.Moving, c.Distance)

/-- The array a `GetContactPoints` or `GetNeighbours` call returns, without the state. -/
def returned {σ α : Type} (r : Except Fault (σ × α)) : Except Fault α :=
  match r with
  | .error e => .error e
  | .ok (_, a) => .ok a

/-- The point of a tile's footprint at the multiples `sx`, `sy` of the whole-number
extents `XExtent`, `YExtent`, rotated by the tile's rotation and moved to its location. -/
def footprintPoint (E : Engine) (t : UNavTileComponent) (XExtent YExtent : Int)
    (sx sy : Int) : FVector :=
  E.VectorPlus t.Location
    (E.RotateVector t.Rotation ⟨((sx * XExtent : Int) : ℚ), ((sy * YExtent : Int) : ℚ), 0⟩)

/-- The nine points of a tile's footprint: corners, edge midpoints and centre, in the order
of `sx` then `sy` over `-1, 0, 1`. -/
def footprintLattice (E : Engine) (t : UNavTileComponent) (XExtent YExtent : Int) :
    List FVector :=
  [footprintPoint E t XExtent YExtent (-1) (-1), footprintPoint E t XExtent YExtent (-1) 0,
   footprintPoint E t XExtent YExtent (-1) 1, footprintPoint E t XExtent YExtent 0 (-1),
   footprintPoint E t XExtent YExtent 0 0, footprintPoint E t XExtent YExtent 0 1,
   footprintPoint E t XExtent YExtent 1 (-1), footprintPoint E t XExtent YExtent 1 0,
   footprintPoint E t XExtent YExtent 1 1]

/-- The contact points a virtual `GetContactPoints` call on the tile returns: those of the
override on a ladder, those of the base class on a plain tile. -/
def contactPointsOf (E : Engine) (fuel : Nat) (t : UNavTileComponent) :
    Except Fault (List FVector) :=
  match t.ContactPointsOverride with
  | some pts => .ok pts
  | none => returned (GetContactPoints E fuel t)

/-- For some contact point `p` of `a` and some contact point `q` of `b` the program's test
`(p - q).Size() < MaxDistance` holds. -/
def contactWithin (E : Engine) (fuel : Nat) (MaxDistance : ℚ) (a b : UNavTileComponent) :
    Bool :=
  match contactPointsOf E fuel a, contactPointsOf E fuel b with
  | .ok As, .ok Bs =>
    As.any (fun p => Bs.any (fun q =>
      decide (E.VectorSize (E.VectorMinus p q) < MaxDistance)))
  | _, _ => false

/-- The test of `GetNeighbours` on an enumerated tile `Itr`: same world, another object,
and contact points within `MaxDistance`. -/
def isNeighbourOf (E : Engine) (fuel : Nat) (MaxDistance : ℚ) (heap : TileHeap)
    (This Itr : TileId) : Bool :=
  decide ((heap Itr).World = (heap This).World ∧ Itr ≠ This) &&
    contactWithin E fuel MaxDistance (heap Itr) (heap This)

/-- A tile on which the virtual `GetContactPoints` returns: it is a ladder, or the points
are cached already, or both box extents lie in `[1, 2^30)`. -/
def ContactPointsReady (t : UNavTileComponent) : Prop :=
  t.ContactPointsOverride ≠ none ∨ t.ContactPoints ≠ [] ∨
    ((1 ≤ t.BoxExtent.X ∧ t.BoxExtent.X < 1073741824) ∧
     (1 ≤ t.BoxExtent.Y ∧ t.BoxExtent.Y < 1073741824))

/-- Two tile states with the same placement: location, rotation, box extent and pawn
offset. -/
def SamePose (t t1 : UNavTileComponent) : Prop :=
  t1.Location = t.Location ∧ t1.Rotation = t.Rotation ∧ t1.BoxExtent = t.BoxExtent ∧
    t1.PawnLocationOffset = t.PawnLocationOffset

/-- Two heaps whose tiles agree on world, neighbour cache, placement and returned contact
points. -/
def SameContacts (E : Engine) (fuel : Nat) (heap heap1 : TileHeap) : Prop :=
  ∀ i, contactPointsOf E fuel (heap1 i) = contactPointsOf E fuel (heap i) ∧
    (heap1 i).World = (heap i).World ∧ (heap1 i).Neighbours = (heap i).Neighbours ∧
    SamePose (heap i) (heap1 i)

/-- Two heaps whose tiles agree on world, placement and returned contact points. -/
def SamePoints (E : Engine) (fuel : Nat) (heap heap1 : TileHeap) : Prop :=
  ∀ i, contactPointsOf E fuel (heap1 i) = contactPointsOf E fuel (heap i) ∧
    (heap1 i).World = (heap i).World ∧ SamePose (heap i) (heap1 i)

/-! ## Theorems -/

theorem FVector.add_def (a b : FVector) : a + b = ⟨a.X + b.X, a.Y + b.Y, a.Z + b.Z⟩ := rfl

theorem FVector.sub_def (a b : FVector) : a - b = ⟨a.X - b.X, a.Y - b.Y, a.Z - b.Z⟩ := rfl

theorem FMath.Max3_lt_iff (a b c m : ℚ) : FMath.Max3 a b c < m ↔ a < m ∧ b < m ∧ c < m := by
  unfold FMath.Max3 FMath.Max
  split_ifs <;> constructor <;> intro h <;> (try refine ⟨?_, ?_, ?_⟩) <;> linarith [h]

theorem FMath.lt_Min3_iff (a b c m : ℚ) : m < FMath.Min3 a b c ↔ m < a ∧ m < b ∧ m < c := by
  unfold FMath.Min3 FMath.Min
  split_ifs <;> constructor <;> intro h <;> (try refine ⟨?_, ?_, ?_⟩) <;> linarith [h]

/-- C4. `Traversable` is true exactly when `Walking` is among the available movement modes
and each of the tile's pitch, yaw and roll lies strictly between `-MaxWalkAngle` and
`MaxWalkAngle`; `LegalPositionAtEndOfTurn` returns the same value. -/
theorem Traversable_iff_walking_and_angles (t : UNavTileComponent) (MaxWalkAngle : ℚ)
    (AvailableMovementModes : List EGridMovementMode) :
    (Traversable t MaxWalkAngle AvailableMovementModes = true ↔
      EGridMovementMode.Walking ∈ AvailableMovementModes ∧
      (-MaxWalkAngle < t.Rotation.Pitch ∧ t.Rotation.Pitch < MaxWalkAngle) ∧
      (-MaxWalkAngle < t.Rotation.Yaw ∧ t.Rotation.Yaw < MaxWalkAngle) ∧
      (-MaxWalkAngle < t.Rotation.Roll ∧ t.Rotation.Roll < MaxWalkAngle)) ∧
    LegalPositionAtEndOfTurn t MaxWalkAngle AvailableMovementModes =
      Traversable t MaxWalkAngle AvailableMovementModes := by
  refine ⟨?_, rfl⟩
  simp [Traversable, FMath.Max3_lt_iff, FMath.lt_Min3_iff]
  tauto

/-- C2 (amended). One tick of a moving component, `D` being the float the program computes
for `Distance + MaxSpeed * DeltaTime`. When `D` reaches the length of the curve, the tick
puts the owner at the sample of the curve at its full length, clears `Moving`, zeroes
`Distance` and `Velocity` and broadcasts the movement-end event once. Otherwise `Moving`
stays set, `Distance` becomes `D`, nothing is broadcast and `Velocity` is the owner's
displacement times the float quotient `1 / DeltaTime`, in the float arithmetic of the
program. -/
theorem TickComponent_moving (E : Engine) (c : UGridMovementComponent) (DeltaTime : ℚ)
    (hMoving : c.Moving = true)
    (_hd0 : 0 ≤ c.Distance) (_hdLen : c.Distance ≤ E.GetSplineLength c.SplinePoints)
    (_hS : 0 ≤ c.MaxSpeed) (_hdt : 0 < DeltaTime) :
    (E.FloatPlus c.Distance (E.FloatTimes c.MaxSpeed DeltaTime) ≥
        E.GetSplineLength c.SplinePoints →
      (TickComponent E c DeltaTime).OwnerTransform.Location =
        (E.GetTransformAtDistanceAlongSpline c.SplinePoints
          (E.GetSplineLength c.SplinePoints)).Location ∧
      (TickComponent E c DeltaTime).Moving = false ∧
      (TickComponent E c DeltaTime).Distance = 0 ∧
      (TickComponent E c DeltaTime).Velocity = FVector.ZeroVector ∧
      (TickComponent E c DeltaTime).MovementEndBroadcasts = c.MovementEndBroadcasts + 1) ∧
    (¬ E.FloatPlus c.Distance (E.FloatTimes c.MaxSpeed DeltaTime) ≥
        E.GetSplineLength c.SplinePoints →
      (TickComponent E c DeltaTime).Moving = true ∧
      (TickComponent E c DeltaTime).Distance =
        E.FloatPlus c.Distance (E.FloatTimes c.MaxSpeed DeltaTime) ∧
      (TickComponent E c DeltaTime).MovementEndBroadcasts = c.MovementEndBroadcasts ∧
      (TickComponent E c DeltaTime).OwnerTransform.Location =
        (E.GetTransformAtDistanceAlongSpline c.SplinePoints
          (E.FloatPlus c.Distance (E.FloatTimes c.MaxSpeed DeltaTime))).Location ∧
      (TickComponent E c DeltaTime).Velocity =
        E.VectorTimes
          (E.VectorMinus (TickComponent E c DeltaTime).OwnerTransform.Location
            c.OwnerTransform.Location)
          (E.FloatQuotient 1 DeltaTime)) := by
  constructor
  · intro h
    have hle : E.GetSplineLength c.SplinePoints ≤
        E.FloatPlus c.Distance (E.FloatTimes c.MaxSpeed DeltaTime) := h
    simp [TickComponent, hMoving, FMath.Min, hle]
  · intro h
    have hnle : ¬ E.GetSplineLength c.SplinePoints ≤
        E.FloatPlus c.Distance (E.FloatTimes c.MaxSpeed DeltaTime) := h
    simp [TickComponent, hMoving, FMath.Min, hnle]

/-- Witness of C2 (amended) on the row scene: a tick of 1 advances the distance from 100 to
150 and keeps moving; a tick of 6 reaches the length 400 and ends the movement. -/
theorem TickComponent_moving_witness :
    (TickComponent rowEngine (rowMover none) 1).Distance = 150 ∧
    (TickComponent rowEngine (rowMover none) 1).Moving = true ∧
    (TickComponent rowEngine (rowMover none) 6).Moving = false ∧
    (TickComponent rowEngine (rowMover none) 6).MovementEndBroadcasts = 1 := by
  have h1 := (TickComponent_moving rowEngine (rowMover none) 1 rfl
    (by norm_num [rowMover]) (by norm_num [rowMover, rowEngine, rowLength])
    (by norm_num [rowMover]) (by norm_num)).2
    (by set_option maxRecDepth 100000 in with_unfolding_all decide)
  have h6 := (TickComponent_moving rowEngine (rowMover none) 6 rfl
    (by norm_num [rowMover]) (by norm_num [rowMover, rowEngine, rowLength])
    (by norm_num [rowMover]) (by norm_num)).1
    (by set_option maxRecDepth 100000 in with_unfolding_all decide)
  refine ⟨?_, h1.1, h6.2.1, ?_⟩
  · rw [h1.2.1]
    set_option maxRecDepth 100000 in with_unfolding_all rfl
  · rw [h6.2.2.2.2]; rfl

/-- C2 (counterexample). On the row scene the curve has length 400, `MaxSpeed` is 1 and
`DeltaTime` is the float 0.1. With `Distance` the float 399.9 the remaining length is
above `MaxSpeed * DeltaTime`, yet the float sum of `Distance` and the product is 400: the
tick ends the movement and broadcasts. With `Distance` 100 the movement goes on and the
new `Distance` is the float 100.09999847412109375, not `100 + MaxSpeed * DeltaTime`. -/
theorem TickComponent_float_sum_reaches_length :
    (nearEndMover.Moving = true ∧ 0 ≤ nearEndMover.Distance ∧
      nearEndMover.Distance ≤ rowEngine.GetSplineLength nearEndMover.SplinePoints ∧
      0 ≤ nearEndMover.MaxSpeed ∧ 0 < floatTenth) ∧
    ¬ (nearEndMover.MaxSpeed * floatTenth ≥
        rowEngine.GetSplineLength nearEndMover.SplinePoints - nearEndMover.Distance) ∧
    (TickComponent rowEngine nearEndMover floatTenth).Moving = false ∧
    (TickComponent rowEngine nearEndMover floatTenth).MovementEndBroadcasts = 1 ∧
    (TickComponent rowEngine { rowMover none with MaxSpeed := 1 } floatTenth).Moving = true ∧
    (TickComponent rowEngine { rowMover none with MaxSpeed := 1 } floatTenth).Distance =
      13120307 / 131072 ∧
    (13120307 / 131072 : ℚ) ≠ 100 + 1 * floatTenth := by
  refine ⟨⟨rfl, ?_, ?_, ?_, ?_⟩, ?_, ?_, ?_, ?_, ?_, ?_⟩
  · norm_num [nearEndMover]
  · norm_num [nearEndMover, rowMover, rowEngine, rowLength]
  · norm_num [nearEndMover]
  · norm_num [floatTenth]
  · norm_num [nearEndMover, rowMover, rowEngine, rowLength, floatTenth]
  · set_option maxRecDepth 100000 in with_unfolding_all rfl
  · set_option maxRecDepth 100000 in with_unfolding_all rfl
  · set_option maxRecDepth 100000 in with_unfolding_all rfl
  · set_option maxRecDepth 100000 in with_unfolding_all rfl
  · norm_num [floatTenth]

/-- A `CreatePath` call that returns false leaves the component as it was except for the
spline points and the up-vector curve, which are empty. -/
theorem CreatePath_false_state (E : Engine) (GetPathPoints : PathPointsMethod) (fuel : Nat)
    (heap heap1 : TileHeap) (c c1 : UGridMovementComponent) (Target : TileId)
    (h : CreatePath E GetPathPoints fuel heap c Target = .ok (false, heap1, c1)) :
    c1 = { c with SplinePoints := [], UpVectors := [] } := by
  unfold CreatePath at h
  simp only at h
  split at h
  · exact absurd h (by simp)
  · split at h
    · simp only [Except.ok.injEq, Prod.mk.injEq, true_and] at h
      exact h.2.symm
    · split at h
      · exact absurd h (by simp)
      · split at h
        · split at h
          · exact absurd h (by simp)
          · split at h
            · exact absurd h (by simp)
            · simp at h
        · simp only [Except.ok.injEq, Prod.mk.injEq, true_and] at h
          exact h.2.symm

/-- C1 (amended). When `CreatePath` returns false, the curve state after the call is empty:
the spline has no points and `UpVectors` has none, whatever they held before; every other
member of the component is as before the call. -/
theorem CreatePath_false_clears_curve (E : Engine) (GetPathPoints : PathPointsMethod)
    (fuel : Nat) (heap heap1 : TileHeap) (c c1 : UGridMovementComponent) (Target : TileId)
    (h : CreatePath E GetPathPoints fuel heap c Target = .ok (false, heap1, c1)) :
    c1.SplinePoints = [] ∧ c1.UpVectors = [] ∧
    c1 = { c with SplinePoints := [], UpVectors := [] } := by
  have hc := CreatePath_false_state E GetPathPoints fuel heap heap1 c c1 Target h
  subst hc
  exact ⟨rfl, rfl, rfl⟩

/-- Witness of C1 (amended): on the grid where no position resolves to a tile, `CreatePath`
returns false and the curve is empty afterwards. -/
theorem CreatePath_false_clears_curve_witness :
    ({ rowMover (some emptyGrid) with SplinePoints := [], UpVectors := [] } :
      UGridMovementComponent).SplinePoints = [] ∧
    ({ rowMover (some emptyGrid) with SplinePoints := [], UpVectors := [] } :
      UGridMovementComponent).UpVectors = [] ∧
    ({ rowMover (some emptyGrid) with SplinePoints := [], UpVectors := [] } :
      UGridMovementComponent) =
      { rowMover (some emptyGrid) with SplinePoints := [], UpVectors := [] } :=
  CreatePath_false_clears_curve rowEngine (GetPathPoints_default rowEngine) 5 rowHeap rowHeap
    (rowMover (some emptyGrid))
    { rowMover (some emptyGrid) with SplinePoints := [], UpVectors := [] } 1 rfl

/-- C1 (counterexample). On the row scene the component holds a curve of three points.
`CreatePath` returns false both when the owner's position resolves to no tile and when the
target (tile 2) is not among the tiles in range, and in both cases the spline points and
the up-vector curve after the call are empty, not what they were before the call. -/
theorem CreatePath_false_changes_curve :
    observe (CreatePath rowEngine (GetPathPoints_default rowEngine) 5 rowHeap
      (rowMover (some emptyGrid)) 1) = .ok (false, [], [], true, 100) ∧
    observe (CreatePath rowEngine (GetPathPoints_default rowEngine) 5 rowHeap
      (rowMover (some rowGrid)) 2) = .ok (false, [], [], true, 100) ∧
    (rowMover (some emptyGrid)).SplinePoints ≠ [] ∧
    (rowMover (some rowGrid)).SplinePoints ≠ [] ∧
    ¬ (∀ heap1 c1, CreatePath rowEngine (GetPathPoints_default rowEngine) 5 rowHeap
        (rowMover (some emptyGrid)) 1 = .ok (false, heap1, c1) →
        c1.SplinePoints = (rowMover (some emptyGrid)).SplinePoints ∧
        c1.UpVectors = (rowMover (some emptyGrid)).UpVectors) := by
  refine ⟨rfl, rfl, by simp [rowMover], by simp [rowMover], ?_⟩
  intro h
  have h1 := (h rowHeap _ rfl).1
  simp [rowMover] at h1

/-- C8 (failing input). With a null `Grid`, `CreatePath` and `MoveTo` do not return false:
both dereference the null pointer at `Grid->GetTile`. -/
theorem CreatePath_null_grid_faults :
    observe (CreatePath rowEngine (GetPathPoints_default rowEngine) 5 rowHeap
      (rowMover none) 1) = .error Fault.NullDereference ∧
    observe (MoveTo rowEngine (GetPathPoints_default rowEngine) 5 rowHeap
      (rowMover none) 1) = .error Fault.NullDereference :=
  ⟨rfl, rfl⟩

/-- A `CreatePath` call that returns changes no member of the component other than the
spline points and the up-vector curve. -/
theorem CreatePath_frame (E : Engine) (GetPathPoints : PathPointsMethod) (fuel : Nat)
    (heap heap1 : TileHeap) (c c1 : UGridMovementComponent) (Target : TileId) (b : Bool)
    (h : CreatePath E GetPathPoints fuel heap c Target = .ok (b, heap1, c1)) :
    c1 = { c with SplinePoints := c1.SplinePoints, UpVectors := c1.UpVectors } := by
  unfold CreatePath at h
  simp only at h
  split at h
  · exact absurd h (by simp)
  · split at h
    · simp only [Except.ok.injEq, Prod.mk.injEq] at h
      rw [← h.2.2]
    · split at h
      · exact absurd h (by simp)
      · split at h
        · split at h
          · exact absurd h (by simp)
          · split at h
            · exact absurd h (by simp)
            · simp only [Except.ok.injEq, Prod.mk.injEq] at h
              rw [← h.2.2]
        · simp only [Except.ok.injEq, Prod.mk.injEq] at h
          rw [← h.2.2]

/-- A `MoveTo` call that returns true sets `Moving` and leaves the travelled `Distance` as
it was before the call. -/
theorem MoveTo_true_Distance (E : Engine) (GetPathPoints : PathPointsMethod) (fuel : Nat)
    (heap heap1 : TileHeap) (c c1 : UGridMovementComponent) (Target : TileId)
    (h : MoveTo E GetPathPoints fuel heap c Target = .ok (true, heap1, c1)) :
    c1.Moving = true ∧ c1.Distance = c.Distance := by
  unfold MoveTo at h
  split at h
  · exact absurd h (by simp)
  · rename_i PathExists hp c2 hc
    have hf := CreatePath_frame E GetPathPoints fuel heap hp c c2 Target PathExists hc
    by_cases hpe : PathExists = true
    · rw [if_pos hpe] at h
      simp only [Except.ok.injEq, Prod.mk.injEq] at h
      rw [← h.2.2, hf]
      exact ⟨rfl, rfl⟩
    · rw [if_neg hpe] at h
      simp only [Except.ok.injEq, Prod.mk.injEq] at h
      exact absurd h.1 hpe

/-- C6 (failing input). On the row scene the component is moving and has travelled 100
along a curve of three points when `MoveTo` is called with tile 1. The call returns true,
the curve is replaced by the two-point curve that begins at the resting position of
tile 0, `Moving` is true, and the travelled `Distance` is still 100, not 0: the next tick
of one second at speed 50 samples the new curve at 150, not at 50. -/
theorem MoveTo_while_moving_keeps_Distance :
    observe (MoveTo rowEngine (GetPathPoints_default rowEngine) 5 rowHeap
      (rowMover (some rowGrid)) 1) =
      .ok (true, [⟨0, 0, 0⟩, ⟨200, 0, 0⟩], [(200, ⟨0, 0, 1⟩)], true, 100) ∧
    locationAfterTick rowEngine (MoveTo rowEngine (GetPathPoints_default rowEngine) 5 rowHeap
      (rowMover (some rowGrid)) 1) 1 = .ok ⟨150, 0, 0⟩ := by
  constructor
  · with_unfolding_all rfl
  · with_unfolding_all rfl

theorem wrapInt32_of_mem (i : Int) (h1 : -2147483648 ≤ i) (h2 : i < 2147483648) :
    wrapInt32 i = i := by
  unfold wrapInt32
  omega

theorem truncToInt32_of_nonneg (q : ℚ) (h0 : 0 ≤ q) (h1 : q < 2147483648) :
    truncToInt32 q = ⌊q⌋ := by
  unfold truncToInt32
  rw [if_pos h0]
  apply wrapInt32_of_mem
  · have := Int.floor_nonneg.mpr h0
    omega
  · have h : (⌊q⌋ : ℚ) ≤ q := Int.floor_le q
    have h3 : ((⌊q⌋ : Int) : ℚ) < ((2147483648 : Int) : ℚ) := by
      push_cast
      linarith
    exact_mod_cast h3

/-- The inner loop of `GetContactPoints` adds the three points at `Y = -YExtent, 0, YExtent`
when `0 < YExtent < 2^30`. -/
theorem GetContactPoints_loopY_eq (E : Engine) (t : UNavTileComponent) (X YExtent : Int)
    (fuel : Nat) (pts : List FVector) (h0 : 0 < YExtent) (h1 : YExtent < 1073741824)
    (hfuel : 4 ≤ fuel) :
    GetContactPoints_loopY E t X YExtent fuel (wrapInt32 (-YExtent)) pts =
      .ok (pts ++
        [E.VectorPlus t.Location
          (E.RotateVector t.Rotation ⟨(X : ℚ), ((-YExtent : Int) : ℚ), 0⟩),
        E.VectorPlus t.Location (E.RotateVector t.Rotation ⟨(X : ℚ), ((0 : Int) : ℚ), 0⟩),
        E.VectorPlus t.Location (E.RotateVector t.Rotation ⟨(X : ℚ), (YExtent : ℚ), 0⟩)]) := by
  obtain ⟨n, rfl⟩ : ∃ n, fuel = n + 4 := ⟨fuel - 4, by omega⟩
  have e1 : wrapInt32 (-YExtent) = -YExtent := wrapInt32_of_mem _ (by omega) (by omega)
  have e2 : wrapInt32 (-YExtent + YExtent) = 0 := by
    rw [wrapInt32_of_mem _ (by omega) (by omega)]; omega
  have e3 : wrapInt32 (0 + YExtent) = YExtent := by
    rw [wrapInt32_of_mem _ (by omega) (by omega)]; omega
  have e4 : wrapInt32 (YExtent + YExtent) = YExtent + YExtent :=
    wrapInt32_of_mem _ (by omega) (by omega)
  have c1 : -YExtent ≤ YExtent := by omega
  have c2 : (0 : Int) ≤ YExtent := by omega
  have c4 : ¬ (YExtent + YExtent ≤ YExtent) := by omega
  rw [e1]
  simp only [GetContactPoints_loopY, c1, c2, c4, e2, e3, e4, if_true, if_false, le_refl,
    List.append_assoc, List.singleton_append, List.cons_append, List.nil_append]

/-- The outer loop of `GetContactPoints` adds the nine lattice points when both whole-number
extents lie strictly between 0 and `2^30`. -/
theorem GetContactPoints_loopX_eq (E : Engine) (t : UNavTileComponent) (XExtent YExtent : Int)
    (fuel : Nat) (pts : List FVector) (hX0 : 0 < XExtent) (hX1 : XExtent < 1073741824)
    (hY0 : 0 < YExtent) (hY1 : YExtent < 1073741824) (hfuel : 7 ≤ fuel) :
    GetContactPoints_loopX E t XExtent YExtent fuel (wrapInt32 (-XExtent)) pts =
      .ok (pts ++ footprintLattice E t XExtent YExtent) := by
  obtain ⟨n, rfl⟩ : ∃ n, fuel = n + 7 := ⟨fuel - 7, by omega⟩
  have e1 : wrapInt32 (-XExtent) = -XExtent := wrapInt32_of_mem _ (by omega) (by omega)
  have e2 : wrapInt32 (-XExtent + XExtent) = 0 := by
    rw [wrapInt32_of_mem _ (by omega) (by omega)]; omega
  have e3 : wrapInt32 (0 + XExtent) = XExtent := by
    rw [wrapInt32_of_mem _ (by omega) (by omega)]; omega
  have e4 : wrapInt32 (XExtent + XExtent) = XExtent + XExtent :=
    wrapInt32_of_mem _ (by omega) (by omega)
  have c1 : -XExtent ≤ XExtent := by omega
  have c2 : (0 : Int) ≤ XExtent := by omega
  have c4 : ¬ (XExtent + XExtent ≤ XExtent) := by omega
  rw [e1]
  rw [GetContactPoints_loopX, if_pos c1,
    GetContactPoints_loopY_eq E t _ YExtent (n + 6) _ hY0 hY1 (by omega)]
  simp only [e2]
  rw [GetContactPoints_loopX, if_pos c2,
    GetContactPoints_loopY_eq E t _ YExtent (n + 5) _ hY0 hY1 (by omega)]
  simp only [e3]
  rw [GetContactPoints_loopX, if_pos (le_refl _),
    GetContactPoints_loopY_eq E t _ YExtent (n + 4) _ hY0 hY1 (by omega)]
  simp only [e4]
  rw [GetContactPoints_loopX, if_neg c4]
  simp [footprintLattice, footprintPoint]

/-- A first `GetContactPoints` call on a tile whose box extents lie in `[1, 2^30)` stores
and returns the nine lattice points of the extents rounded down. -/
theorem GetContactPoints_lattice (E : Engine) (t : UNavTileComponent) (fuel : Nat)
    (hempty : t.ContactPoints = [])
    (hX : 1 ≤ t.BoxExtent.X ∧ t.BoxExtent.X < 1073741824)
    (hY : 1 ≤ t.BoxExtent.Y ∧ t.BoxExtent.Y < 1073741824) (hfuel : 7 ≤ fuel) :
    GetContactPoints E fuel t =
      .ok ({ t with ContactPoints := footprintLattice E t ⌊t.BoxExtent.X⌋ ⌊t.BoxExtent.Y⌋ },
        footprintLattice E t ⌊t.BoxExtent.X⌋ ⌊t.BoxExtent.Y⌋) := by
  have tX : truncToInt32 t.BoxExtent.X = ⌊t.BoxExtent.X⌋ :=
    truncToInt32_of_nonneg _ (by linarith [hX.1]) (by linarith [hX.2])
  have tY : truncToInt32 t.BoxExtent.Y = ⌊t.BoxExtent.Y⌋ :=
    truncToInt32_of_nonneg _ (by linarith [hY.1]) (by linarith [hY.2])
  have fX0 : 0 < ⌊t.BoxExtent.X⌋ := Int.floor_pos.mpr hX.1
  have fY0 : 0 < ⌊t.BoxExtent.Y⌋ := Int.floor_pos.mpr hY.1
  have fX1 : ⌊t.BoxExtent.X⌋ < 1073741824 := by
    have h : (⌊t.BoxExtent.X⌋ : ℚ) ≤ t.BoxExtent.X := Int.floor_le _
    have h3 : ((⌊t.BoxExtent.X⌋ : Int) : ℚ) < ((1073741824 : Int) : ℚ) := by
      push_cast
      linarith [hX.2]
    exact_mod_cast h3
  have fY1 : ⌊t.BoxExtent.Y⌋ < 1073741824 := by
    have h : (⌊t.BoxExtent.Y⌋ : ℚ) ≤ t.BoxExtent.Y := Int.floor_le _
    have h3 : ((⌊t.BoxExtent.Y⌋ : Int) : ℚ) < ((1073741824 : Int) : ℚ) := by
      push_cast
      linarith [hY.2]
    exact_mod_cast h3
  unfold GetContactPoints
  simp only [hempty, List.length_nil, if_true, tX, tY]
  rw [GetContactPoints_loopX_eq E t _ _ fuel [] fX0 fX1 fY0 fY1 hfuel]
  simp

/-- With a Y extent that truncates to 0 the inner loop of `GetContactPoints` never leaves
`Y = 0`: it exhausts every fuel. -/
theorem GetContactPoints_loopY_zero (E : Engine) (t : UNavTileComponent) (X : Int)
    (fuel : Nat) (pts : List FVector) :
    GetContactPoints_loopY E t X 0 fuel 0 pts = .error Fault.OutOfFuel := by
  induction fuel generalizing pts with
  | zero => rfl
  | succ n ih =>
    have e : wrapInt32 (0 + 0) = 0 := by decide
    simp only [GetContactPoints_loopY, le_refl, if_true, e, ih]

/-- A first `GetContactPoints` call on a tile whose Y extent truncates to 0 and whose X
extent truncates to a number from 0 to `2^30` does not return, whatever the fuel. -/
theorem GetContactPoints_zero_extent (E : Engine) (t : UNavTileComponent) (fuel : Nat)
    (hempty : t.ContactPoints = []) (hY : truncToInt32 t.BoxExtent.Y = 0)
    (hX0 : 0 ≤ truncToInt32 t.BoxExtent.X) (hX1 : truncToInt32 t.BoxExtent.X < 1073741824) :
    GetContactPoints E fuel t = .error Fault.OutOfFuel := by
  unfold GetContactPoints
  simp only [hempty, List.length_nil, if_true, hY]
  have e1 : wrapInt32 (-truncToInt32 t.BoxExtent.X) = -truncToInt32 t.BoxExtent.X :=
    wrapInt32_of_mem _ (by omega) (by omega)
  have e0 : wrapInt32 (-0) = 0 := by decide
  have c1 : -truncToInt32 t.BoxExtent.X ≤ truncToInt32 t.BoxExtent.X := by omega
  cases fuel with
  | zero => rfl
  | succ n =>
    rw [e1, GetContactPoints_loopX, if_pos c1, e0, GetContactPoints_loopY_zero]

/-- C5 (amended). A first `GetContactPoints` call on a planar tile whose box extents
`XExtent`, `YExtent` lie in `[1, 2^30)` returns exactly 9 points: with the extents rounded
down to whole numbers, the points `location + rotate(rotation, (sx*XExtent, sy*YExtent, 0))`
for `sx`, `sy` in `{-1, 0, +1}`, that is the four corners, the four edge midpoints and the
centre of the footprint; the sum is the one `FVector::operator+` computes. -/
theorem GetContactPoints_first_call_nine_points (E : Engine) (t : UNavTileComponent)
    (fuel : Nat) (hempty : t.ContactPoints = [])
    (hX : 1 ≤ t.BoxExtent.X ∧ t.BoxExtent.X < 1073741824)
    (hY : 1 ≤ t.BoxExtent.Y ∧ t.BoxExtent.Y < 1073741824) (hfuel : 7 ≤ fuel) :
    returned (GetContactPoints E fuel t) =
      .ok (footprintLattice E t ⌊t.BoxExtent.X⌋ ⌊t.BoxExtent.Y⌋) ∧
    (footprintLattice E t ⌊t.BoxExtent.X⌋ ⌊t.BoxExtent.Y⌋).length = 9 ∧
    ∀ p, p ∈ footprintLattice E t ⌊t.BoxExtent.X⌋ ⌊t.BoxExtent.Y⌋ ↔
      ∃ sx sy : Int, (sx = -1 ∨ sx = 0 ∨ sx = 1) ∧ (sy = -1 ∨ sy = 0 ∨ sy = 1) ∧
        p = E.VectorPlus t.Location (E.RotateVector t.Rotation
          ⟨(sx : ℚ) * (⌊t.BoxExtent.X⌋ : ℚ), (sy : ℚ) * (⌊t.BoxExtent.Y⌋ : ℚ), 0⟩) := by
  refine ⟨?_, rfl, ?_⟩
  · rw [GetContactPoints_lattice E t fuel hempty hX hY hfuel]
    rfl
  · intro p
    simp only [footprintLattice, footprintPoint, List.mem_cons, List.mem_singleton,
      List.not_mem_nil, or_false, Int.cast_mul]
    constructor
    · intro h
      rcases h with h | h | h | h | h | h | h | h | h
      · exact ⟨-1, -1, by simp, by simp, h⟩
      · exact ⟨-1, 0, by simp, by simp, h⟩
      · exact ⟨-1, 1, by simp, by simp, h⟩
      · exact ⟨0, -1, by simp, by simp, h⟩
      · exact ⟨0, 0, by simp, by simp, h⟩
      · exact ⟨0, 1, by simp, by simp, h⟩
      · exact ⟨1, -1, by simp, by simp, h⟩
      · exact ⟨1, 0, by simp, by simp, h⟩
      · exact ⟨1, 1, by simp, by simp, h⟩
    · rintro ⟨sx, sy, hsx, hsy, rfl⟩
      rcases hsx with rfl | rfl | rfl <;> rcases hsy with rfl | rfl | rfl <;> simp

theorem GetContactPoints_ok (E : Engine) (fuel : Nat) (t t1 : UNavTileComponent)
    (pts : List FVector) (h : GetContactPoints E fuel t = .ok (t1, pts)) :
    t1 = { t with ContactPoints := pts } ∧ GetContactPoints E fuel t1 = .ok (t1, pts) := by
  have h0 := h
  unfold GetContactPoints at h
  by_cases hc : t.ContactPoints.length = 0
  · simp only [hc, if_true] at h
    split at h
    · exact absurd h (by simp)
    · rename_i pts1 hloop
      simp only [Except.ok.injEq, Prod.mk.injEq] at h
      obtain ⟨ht, hp⟩ := h
      subst hp
      refine ⟨ht.symm, ?_⟩
      by_cases hp : pts1 = []
      · have hnil : t.ContactPoints = [] := List.length_eq_zero.mp hc
        have : t1 = t := by
          rw [← ht, hp, ← hnil]
        rw [this]
        rw [this] at h0
        exact h0
      · unfold GetContactPoints
        have : ¬ t1.ContactPoints.length = 0 := by
          rw [← ht]
          simpa using hp
        simp only [this, if_false]
        rw [← ht]
  · simp only [hc, if_false, Except.ok.injEq, Prod.mk.injEq] at h
    obtain ⟨ht, hp⟩ := h
    subst ht
    subst hp
    exact ⟨rfl, h0⟩

theorem contactPointsOf_base (E : Engine) (fuel : Nat) (t : UNavTileComponent)
    (h : t.ContactPointsOverride = none) :
    contactPointsOf E fuel t = returned (GetContactPoints E fuel t) := by
  unfold contactPointsOf
  rw [h]

theorem contactPointsOf_override (E : Engine) (fuel : Nat) (t : UNavTileComponent)
    (pts : List FVector) (h : t.ContactPointsOverride = some pts) :
    contactPointsOf E fuel t = .ok pts := by
  unfold contactPointsOf
  rw [h]

theorem GetContactPointsAt_ok (E : Engine) (fuel : Nat) (heap heap1 : TileHeap) (T : TileId)
    (pts : List FVector) (h : GetContactPointsAt E fuel heap T = .ok (heap1, pts)) :
    contactPointsOf E fuel (heap T) = .ok pts ∧ SameContacts E fuel heap heap1 := by
  unfold GetContactPointsAt at h
  cases hov : (heap T).ContactPointsOverride with
  | some ps =>
    rw [hov] at h
    simp only [Except.ok.injEq, Prod.mk.injEq] at h
    obtain ⟨hh, hp⟩ := h
    subst hh
    subst hp
    exact ⟨contactPointsOf_override E fuel _ ps hov, fun _ => ⟨rfl, rfl, rfl, rfl, rfl, rfl, rfl⟩⟩
  | none =>
    rw [hov] at h
    simp only at h
    split at h
    · exact absurd h (by simp)
    · rename_i t1 pts1 hg
      simp only [Except.ok.injEq, Prod.mk.injEq] at h
      obtain ⟨hh, hp⟩ := h
      subst hp
      obtain ⟨ht1, hg1⟩ := GetContactPoints_ok E fuel (heap T) t1 pts1 hg
      have hov1 : t1.ContactPointsOverride = none := by
        rw [ht1]
        exact hov
      refine ⟨by rw [contactPointsOf_base E fuel _ hov]; simp [returned, hg], ?_⟩
      intro i
      rw [← hh]
      by_cases hi : i = T
      · subst hi
        simp only [Function.update_same]
        refine ⟨?_, ?_, ?_, ?_⟩
        · rw [contactPointsOf_base E fuel _ hov, contactPointsOf_base E fuel _ hov1]
          simp [returned, hg, hg1]
        · rw [ht1]
        · rw [ht1]
        · rw [ht1]
          exact ⟨rfl, rfl, rfl, rfl⟩
      · simp [Function.update_noteq hi, SamePose]

theorem SameContacts_refl (E : Engine) (fuel : Nat) (heap : TileHeap) :
    SameContacts E fuel heap heap :=
  fun _ => ⟨rfl, rfl, rfl, rfl, rfl, rfl, rfl⟩

theorem SamePose_trans {a b c : UNavTileComponent} (h1 : SamePose a b) (h2 : SamePose b c) :
    SamePose a c :=
  ⟨h2.1.trans h1.1, h2.2.1.trans h1.2.1, h2.2.2.1.trans h1.2.2.1, h2.2.2.2.trans h1.2.2.2⟩

theorem SameContacts_trans {E : Engine} {fuel : Nat} {h1 h2 h3 : TileHeap}
    (a : SameContacts E fuel h1 h2) (b : SameContacts E fuel h2 h3) :
    SameContacts E fuel h1 h3 :=
  fun i => ⟨(b i).1.trans (a i).1, (b i).2.1.trans (a i).2.1, (b i).2.2.1.trans (a i).2.2.1,
    SamePose_trans (a i).2.2.2 (b i).2.2.2⟩

theorem SameContacts_samePoints {E : Engine} {fuel : Nat} {h1 h2 : TileHeap}
    (a : SameContacts E fuel h1 h2) : SamePoints E fuel h1 h2 :=
  fun i => ⟨(a i).1, (a i).2.1, (a i).2.2.2⟩

theorem SamePoints_refl (E : Engine) (fuel : Nat) (heap : TileHeap) :
    SamePoints E fuel heap heap :=
  fun _ => ⟨rfl, rfl, rfl, rfl, rfl, rfl⟩

theorem SamePoints_trans {E : Engine} {fuel : Nat} {h1 h2 h3 : TileHeap}
    (a : SamePoints E fuel h1 h2) (b : SamePoints E fuel h2 h3) : SamePoints E fuel h1 h3 :=
  fun i => ⟨(b i).1.trans (a i).1, (b i).2.1.trans (a i).2.1,
    SamePose_trans (a i).2.2 (b i).2.2⟩

theorem isNeighbourOf_congr {E : Engine} {fuel : Nat} {h1 h2 : TileHeap}
    (a : SamePoints E fuel h1 h2) (M : ℚ) (This Itr : TileId) :
    isNeighbourOf E fuel M h2 This Itr = isNeighbourOf E fuel M h1 This Itr := by
  unfold isNeighbourOf contactWithin
  rw [(a Itr).1, (a Itr).2.1, (a This).1, (a This).2.1]

theorem GetContactPoints_loopY_congr (E : Engine) (t t1 : UNavTileComponent)
    (hL : t1.Location = t.Location) (hR : t1.Rotation = t.Rotation) (X YExtent : Int)
    (fuel : Nat) (Y : Int) (pts : List FVector) :
    GetContactPoints_loopY E t1 X YExtent fuel Y pts =
      GetContactPoints_loopY E t X YExtent fuel Y pts := by
  induction fuel generalizing Y pts with
  | zero => rfl
  | succ n ih => simp only [GetContactPoints_loopY, hL, hR, ih]

theorem GetContactPoints_loopX_congr (E : Engine) (t t1 : UNavTileComponent)
    (hL : t1.Location = t.Location) (hR : t1.Rotation = t.Rotation) (XExtent YExtent : Int)
    (fuel : Nat) (X : Int) (pts : List FVector) :
    GetContactPoints_loopX E t1 XExtent YExtent fuel X pts =
      GetContactPoints_loopX E t XExtent YExtent fuel X pts := by
  induction fuel generalizing X pts with
  | zero => rfl
  | succ n ih =>
    simp only [GetContactPoints_loopX, GetContactPoints_loopY_congr E t t1 hL hR, ih]

theorem GetContactPoints_set_Neighbours (E : Engine) (fuel : Nat) (t : UNavTileComponent)
    (Ns : List TileId) :
    returned (GetContactPoints E fuel { t with Neighbours := Ns }) =
      returned (GetContactPoints E fuel t) := by
  unfold GetContactPoints
  simp only
  rw [GetContactPoints_loopX_congr E t { t with Neighbours := Ns } rfl rfl]
  by_cases hc : t.ContactPoints.length = 0
  · simp only [hc, if_true]
    cases GetContactPoints_loopX E t (truncToInt32 t.BoxExtent.X) (truncToInt32 t.BoxExtent.Y)
      fuel (wrapInt32 (-truncToInt32 t.BoxExtent.X)) t.ContactPoints <;> rfl
  · simp only [hc, if_false]
    rfl

theorem contactPointsOf_set_Neighbours (E : Engine) (fuel : Nat) (t : UNavTileComponent)
    (Ns : List TileId) :
    contactPointsOf E fuel { t with Neighbours := Ns } = contactPointsOf E fuel t := by
  unfold contactPointsOf
  simp only
  rw [GetContactPoints_set_Neighbours]

theorem GetNeighbours_scan_ok (E : Engine) (fuel : Nat) (This : TileId) (M : ℚ)
    (Others : List FVector) (heap heap2 : TileHeap) (Added : Bool)
    (h : GetNeighbours_scan E fuel This M heap Others = .ok (heap2, Added)) :
    SameContacts E fuel heap heap2 ∧
    (Added = true ↔ ∃ MyCPs, contactPointsOf E fuel (heap This) = .ok MyCPs ∧
      Others.any (fun o => MyCPs.any (fun m =>
        decide (E.VectorSize (E.VectorMinus o m) < M))) = true) := by
  induction Others generalizing heap with
  | nil =>
    simp only [GetNeighbours_scan, Except.ok.injEq, Prod.mk.injEq] at h
    obtain ⟨hh, ha⟩ := h
    subst hh
    subst ha
    exact ⟨SameContacts_refl E fuel heap, by simp⟩
  | cons o rest ih =>
    unfold GetNeighbours_scan at h
    split at h
    · exact absurd h (by simp)
    · rename_i heap1 MyCPs hg
      obtain ⟨hcp, hsame⟩ := GetContactPointsAt_ok E fuel heap heap1 This MyCPs hg
      by_cases hany : MyCPs.any (fun MyCP =>
        decide (E.VectorSize (E.VectorMinus o MyCP) < M)) = true
      · simp only [hany, if_true, Except.ok.injEq, Prod.mk.injEq] at h
        obtain ⟨hh, ha⟩ := h
        subst hh
        subst ha
        refine ⟨hsame, ?_⟩
        simp only [true_iff]
        exact ⟨MyCPs, hcp, by simp only [List.any_cons, hany, Bool.true_or]⟩
      · simp only [hany, if_false] at h
        obtain ⟨hsame2, hiff⟩ := ih heap1 h
        refine ⟨SameContacts_trans hsame hsame2, ?_⟩
        rw [hiff, (hsame This).1, hcp]
        constructor
        · rintro ⟨My, hMy, hr⟩
          simp only [Except.ok.injEq] at hMy
          subst hMy
          exact ⟨MyCPs, rfl, by simp only [List.any_cons, hr, Bool.or_true]⟩
        · rintro ⟨My, hMy, hr⟩
          simp only [Except.ok.injEq] at hMy
          subst hMy
          refine ⟨MyCPs, rfl, ?_⟩
          simp only [List.any_cons, Bool.or_eq_true] at hr
          rcases hr with hr | hr
          · exact absurd hr hany
          · exact hr

theorem SamePoints_update_Neighbours (E : Engine) (fuel : Nat) (heap : TileHeap)
    (This : TileId) (Ns : List TileId) :
    SamePoints E fuel heap (Function.update heap This { heap This with Neighbours := Ns }) := by
  intro i
  by_cases hi : i = This
  · subst hi
    rw [Function.update_same]
    exact ⟨contactPointsOf_set_Neighbours E fuel _ Ns, rfl, rfl, rfl, rfl, rfl⟩
  · simp [Function.update_noteq hi, SamePose]

theorem GetNeighbours_scan_Added (E : Engine) (fuel : Nat) (This Itr : TileId) (M : ℚ)
    (Others : List FVector) (heap heap1 heap2 : TileHeap) (Added : Bool)
    (hcond : (heap Itr).World = (heap This).World ∧ Itr ≠ This)
    (hItr : contactPointsOf E fuel (heap Itr) = .ok Others)
    (hsame : SameContacts E fuel heap heap1)
    (h : GetNeighbours_scan E fuel This M heap1 Others = .ok (heap2, Added)) :
    Added = isNeighbourOf E fuel M heap This Itr := by
  obtain ⟨_, hiff⟩ := GetNeighbours_scan_ok E fuel This M Others heap1 heap2 Added h
  rw [(hsame This).1] at hiff
  unfold isNeighbourOf contactWithin
  rw [hItr, decide_eq_true hcond, Bool.true_and]
  cases hT : contactPointsOf E fuel (heap This) with
  | error e =>
    rw [hT] at hiff
    have hA : Added = false := by
      cases Added
      · rfl
      · obtain ⟨My, hMy, _⟩ := hiff.mp rfl
        exact absurd hMy (by simp)
    simp [hA]
  | ok Bs =>
    rw [hT] at hiff
    rw [Bool.eq_iff_iff, hiff]
    constructor
    · rintro ⟨My, hMy, hr⟩
      simp only [Except.ok.injEq] at hMy
      subst hMy
      exact hr
    · intro hr
      exact ⟨Bs, rfl, hr⟩

theorem GetNeighbours_loop_ok (E : Engine) (fuel : Nat) (This : TileId) (M : ℚ)
    (Objs : List TileId) (heap heap1 : TileHeap)
    (h : GetNeighbours_loop E fuel This M heap Objs = .ok heap1) :
    SamePoints E fuel heap heap1 ∧
    (heap1 This).Neighbours =
      (heap This).Neighbours ++ Objs.filter (isNeighbourOf E fuel M heap This) := by
  induction Objs generalizing heap with
  | nil =>
    simp only [GetNeighbours_loop, Except.ok.injEq] at h
    subst h
    exact ⟨SamePoints_refl E fuel heap, by simp⟩
  | cons Itr rest ih =>
    unfold GetNeighbours_loop at h
    by_cases hcond : (heap Itr).World = (heap This).World ∧ Itr ≠ This
    · rw [if_pos hcond] at h
      split at h
      · exact absurd h (by simp)
      · rename_i hp1 OtherCPs hg
        obtain ⟨hItr, hsame1⟩ := GetContactPointsAt_ok E fuel heap hp1 Itr OtherCPs hg
        split at h
        · exact absurd h (by simp)
        · rename_i hp2 Added hs
          have hAdded := GetNeighbours_scan_Added E fuel This Itr M OtherCPs heap hp1 hp2
            Added hcond hItr hsame1 hs
          obtain ⟨hsame2, _⟩ := GetNeighbours_scan_ok E fuel This M OtherCPs hp1 hp2 Added hs
          have hsame := SameContacts_trans hsame1 hsame2
          cases hA : Added with
          | true =>
            rw [hA] at h hAdded
            simp only [if_true] at h
            obtain ⟨hsp, hN⟩ := ih _ h
            have hsp0 := SamePoints_update_Neighbours E fuel hp2 This
              ((hp2 This).Neighbours ++ [Itr])
            have hall := SamePoints_trans (SameContacts_samePoints hsame) hsp0
            have hf : isNeighbourOf E fuel M (Function.update hp2 This
                { hp2 This with Neighbours := (hp2 This).Neighbours ++ [Itr] }) This =
                isNeighbourOf E fuel M heap This :=
              funext (fun x => isNeighbourOf_congr hall M This x)
            refine ⟨SamePoints_trans hall hsp, ?_⟩
            rw [hN, hf, Function.update_same, List.filter_cons, ← hAdded]
            show ((hp2 This).Neighbours ++ [Itr]) ++ _ = _
            rw [(hsame This).2.2.1]
            simp only [if_true, List.append_assoc, List.singleton_append]
          | false =>
            rw [hA] at h hAdded
            simp only [Bool.false_eq_true, if_false] at h
            obtain ⟨hsp, hN⟩ := ih _ h
            have hf : isNeighbourOf E fuel M hp2 This = isNeighbourOf E fuel M heap This :=
              funext (fun x => isNeighbourOf_congr (SameContacts_samePoints hsame) M This x)
            refine ⟨SamePoints_trans (SameContacts_samePoints hsame) hsp, ?_⟩
            rw [hN, hf, (hsame This).2.2.1, List.filter_cons, ← hAdded]
            simp only [Bool.false_eq_true, if_false]
    · rw [if_neg hcond] at h
      obtain ⟨hsp, hN⟩ := ih _ h
      refine ⟨hsp, ?_⟩
      rw [hN, List.filter_cons]
      have : isNeighbourOf E fuel M heap This Itr = false := by
        unfold isNeighbourOf
        simp only [hcond, decide_False, Bool.false_and]
      simp only [this, Bool.false_eq_true, if_false]

theorem contactPointsOf_ready (E : Engine) (fuel : Nat) (t : UNavTileComponent)
    (hready : ContactPointsReady t) (hfuel : 7 ≤ fuel) :
    ∃ pts, contactPointsOf E fuel t = .ok pts := by
  cases hov : t.ContactPointsOverride with
  | some ps => exact ⟨ps, contactPointsOf_override E fuel t ps hov⟩
  | none =>
    rw [contactPointsOf_base E fuel t hov]
    by_cases hc : t.ContactPoints = []
    · rcases hready with h | h | ⟨hX, hY⟩
      · exact absurd hov h
      · exact absurd hc h
      · exact ⟨_, by rw [GetContactPoints_lattice E t fuel hc hX hY hfuel]; rfl⟩
    · refine ⟨t.ContactPoints, ?_⟩
      unfold GetContactPoints
      have : ¬ t.ContactPoints.length = 0 := by simpa using hc
      simp only [this, if_false]
      rfl

theorem GetContactPointsAt_total (E : Engine) (fuel : Nat) (heap : TileHeap) (T : TileId)
    (h : ∃ pts, contactPointsOf E fuel (heap T) = .ok pts) :
    ∃ heap1 pts, GetContactPointsAt E fuel heap T = .ok (heap1, pts) := by
  obtain ⟨pts, hp⟩ := h
  unfold GetContactPointsAt
  cases hov : (heap T).ContactPointsOverride with
  | some ps => exact ⟨heap, ps, rfl⟩
  | none =>
    rw [contactPointsOf_base E fuel _ hov] at hp
    cases hg : GetContactPoints E fuel (heap T) with
    | error e =>
      rw [hg] at hp
      exact absurd hp (by simp [returned])
    | ok r => exact ⟨Function.update heap T r.1, r.2, rfl⟩

theorem GetNeighbours_scan_total (E : Engine) (fuel : Nat) (This : TileId) (M : ℚ)
    (Others : List FVector) (heap : TileHeap)
    (h : ∃ pts, contactPointsOf E fuel (heap This) = .ok pts) :
    ∃ heap2 Added, GetNeighbours_scan E fuel This M heap Others = .ok (heap2, Added) := by
  induction Others generalizing heap with
  | nil => exact ⟨heap, false, rfl⟩
  | cons o rest ih =>
    obtain ⟨heap1, MyCPs, hg⟩ := GetContactPointsAt_total E fuel heap This h
    obtain ⟨_, hsame⟩ := GetContactPointsAt_ok E fuel heap heap1 This MyCPs hg
    unfold GetNeighbours_scan
    rw [hg]
    by_cases hany : MyCPs.any (fun MyCP =>
        decide (E.VectorSize (E.VectorMinus o MyCP) < M)) = true
    · exact ⟨heap1, true, by simp only [hany, if_true]⟩
    · simp only [hany, if_false]
      apply ih
      rw [(hsame This).1]
      exact h

theorem GetNeighbours_loop_total (E : Engine) (fuel : Nat) (This : TileId) (M : ℚ)
    (Objs : List TileId) (heap : TileHeap)
    (hObjs : ∀ T ∈ Objs, ∃ pts, contactPointsOf E fuel (heap T) = .ok pts)
    (hThis : ∃ pts, contactPointsOf E fuel (heap This) = .ok pts) :
    ∃ heap1, GetNeighbours_loop E fuel This M heap Objs = .ok heap1 := by
  induction Objs generalizing heap with
  | nil => exact ⟨heap, rfl⟩
  | cons Itr rest ih =>
    have step : ∀ hp : TileHeap, SamePoints E fuel heap hp →
        ∃ heap1, GetNeighbours_loop E fuel This M hp rest = .ok heap1 := by
      intro hp hsp
      apply ih
      · intro T hT
        rw [(hsp T).1]
        exact hObjs T (List.mem_cons_of_mem _ hT)
      · rw [(hsp This).1]
        exact hThis
    unfold GetNeighbours_loop
    by_cases hcond : (heap Itr).World = (heap This).World ∧ Itr ≠ This
    · rw [if_pos hcond]
      obtain ⟨hp1, OtherCPs, hg⟩ :=
        GetContactPointsAt_total E fuel heap Itr (hObjs Itr (List.mem_cons_self _ _))
      obtain ⟨_, hsame1⟩ := GetContactPointsAt_ok E fuel heap hp1 Itr OtherCPs hg
      have hThis1 : ∃ pts, contactPointsOf E fuel (hp1 This) = .ok pts := by
        rw [(hsame1 This).1]
        exact hThis
      obtain ⟨hp2, Added, hs⟩ := GetNeighbours_scan_total E fuel This M OtherCPs hp1 hThis1
      obtain ⟨hsame2, _⟩ := GetNeighbours_scan_ok E fuel This M OtherCPs hp1 hp2 Added hs
      have hsame := SameContacts_samePoints (SameContacts_trans hsame1 hsame2)
      rw [hg]
      simp only [hs]
      cases Added with
      | true =>
        simp only [if_true]
        exact step _ (SamePoints_trans hsame (SamePoints_update_Neighbours E fuel hp2 This _))
      | false =>
        simp only [Bool.false_eq_true, if_false]
        exact step _ hsame
    · rw [if_neg hcond]
      exact step heap (SamePoints_refl E fuel heap)

theorem isNeighbourOf_iff (E : Engine) (fuel : Nat) (M : ℚ) (heap : TileHeap)
    (This A : TileId) :
    isNeighbourOf E fuel M heap This A = true ↔
      (heap A).World = (heap This).World ∧ A ≠ This ∧
      ∃ ptsA ptsB, contactPointsOf E fuel (heap A) = .ok ptsA ∧
        contactPointsOf E fuel (heap This) = .ok ptsB ∧
        ∃ p ∈ ptsA, ∃ q ∈ ptsB, E.VectorSize (E.VectorMinus p q) < M := by
  unfold isNeighbourOf contactWithin
  rw [Bool.and_eq_true, decide_eq_true_iff, and_assoc]
  refine and_congr_right (fun _ => and_congr_right (fun _ => ?_))
  cases hA : contactPointsOf E fuel (heap A) with
  | error e => simp
  | ok As =>
    cases hB : contactPointsOf E fuel (heap This) with
    | error e => simp
    | ok Bs => simp [List.any_eq_true]

/-- With an empty neighbour cache, `GetNeighbours` returns the enumerated objects that pass
its test, in the order of the enumeration. -/
theorem GetNeighbours_eq_filter (E : Engine) (Objects : List TileId) (fuel : Nat)
    (heap heap1 : TileHeap) (This : TileId) (L : List TileId)
    (hcache : (heap This).Neighbours = [])
    (h : GetNeighbours E Objects fuel heap This = .ok (heap1, L)) :
    L = Objects.filter
      (isNeighbourOf E fuel (E.TimesDoubleLiteral (heap This).BoxExtent.X (9 / 10)) heap This) := by
  unfold GetNeighbours at h
  simp only [hcache, List.length_nil, if_true] at h
  split at h
  · exact absurd h (by simp)
  · rename_i hp hl
    simp only [Except.ok.injEq, Prod.mk.injEq] at h
    obtain ⟨hh, hL⟩ := h
    subst hh
    rw [← hL, (GetNeighbours_loop_ok E fuel This _ Objects heap hp hl).2, hcache]
    rfl

/-- With a non-empty neighbour cache, `GetNeighbours` returns the cache and changes
nothing. -/
theorem GetNeighbours_cached (E : Engine) (Objects : List TileId) (fuel : Nat)
    (heap : TileHeap) (This : TileId) (hcache : (heap This).Neighbours ≠ []) :
    GetNeighbours E Objects fuel heap This = .ok (heap, (heap This).Neighbours) := by
  unfold GetNeighbours
  have : ¬ (heap This).Neighbours.length = 0 := by simpa using hcache
  simp only [this, if_false]

/-- C3 (amended). On a tile `This` with an empty neighbour cache, while the object iterator
enumerates `Objects` without repetition: every list that `GetNeighbours` returns contains
a tile `A` exactly when `A` is enumerated, is in the world of `This`, is not `This`, and
for some contact point `p` of `A` and some contact point `q` of `This` the program's test
`(p - q).Size() < MaxDistance` holds in float arithmetic, `MaxDistance` being the float
of the X half-extent of `This` times 0.9 and the contact points being those the virtual
`GetContactPoints` returns; `This` is not in the list and no tile is in it twice. The call
returns when `This` and every enumerated tile is a ladder, has its contact points cached
or has box extents in `[1, 2^30)`. -/
theorem GetNeighbours_iff_contact (E : Engine) (Objects : List TileId) (fuel : Nat)
    (heap : TileHeap) (This : TileId)
    (hcache : (heap This).Neighbours = []) (hnodup : Objects.Nodup) :
    (∀ heap1 L, GetNeighbours E Objects fuel heap This = .ok (heap1, L) →
      (∀ A, A ∈ L ↔
        A ∈ Objects ∧ (heap A).World = (heap This).World ∧ A ≠ This ∧
        ∃ ptsA ptsB, contactPointsOf E fuel (heap A) = .ok ptsA ∧
          contactPointsOf E fuel (heap This) = .ok ptsB ∧
          ∃ p ∈ ptsA, ∃ q ∈ ptsB,
            E.VectorSize (E.VectorMinus p q) <
              E.TimesDoubleLiteral (heap This).BoxExtent.X (9 / 10)) ∧
      This ∉ L ∧ L.Nodup) ∧
    ((∀ T, T ∈ Objects ∨ T = This → ContactPointsReady (heap T)) → 7 ≤ fuel →
      ∃ heap1 L, GetNeighbours E Objects fuel heap This = .ok (heap1, L)) := by
  constructor
  · intro heap1 L h
    have hL := GetNeighbours_eq_filter E Objects fuel heap heap1 This L hcache h
    subst hL
    refine ⟨?_, ?_, hnodup.filter _⟩
    · intro A
      rw [List.mem_filter, isNeighbourOf_iff]
    · intro hmem
      have := ((isNeighbourOf_iff E fuel _ heap This This).mp (List.mem_filter.mp hmem).2).2.1
      exact this rfl
  · intro hready hfuel
    obtain ⟨hp, hl⟩ := GetNeighbours_loop_total E fuel This
      (E.TimesDoubleLiteral (heap This).BoxExtent.X (9 / 10)) Objects heap
      (fun T hT => contactPointsOf_ready E fuel _ (hready T (Or.inl hT)) hfuel)
      (contactPointsOf_ready E fuel _ (hready This (Or.inr rfl)) hfuel)
    refine ⟨hp, (hp This).Neighbours, ?_⟩
    unfold GetNeighbours
    simp only [hcache, List.length_nil, if_true, hl]

/-- Witness of C3 (amended) on the row scene: the call on tile 0 among tiles 0, 1, 2 returns, and the
returned list has neither tile 0 nor a repetition. -/
theorem GetNeighbours_iff_contact_witness :
    ∃ heap1 L, GetNeighbours rowEngine [0, 1, 2] 7 rowHeap 0 = .ok (heap1, L) ∧
      0 ∉ L ∧ L.Nodup := by
  have h := GetNeighbours_iff_contact rowEngine [0, 1, 2] 7 rowHeap 0 rfl (by decide)
  obtain ⟨heap1, L, hL⟩ := h.2
    (fun T _ => Or.inr (Or.inr (by norm_num [rowHeap, rowTile]))) (le_refl 7)
  exact ⟨heap1, L, hL, (h.1 heap1 L hL).2⟩

/-- C3 (counterexample). With the Y half-extent of tile 1 shrunk to one half, the call on
tile 0 among tiles 0 and 1 does not return, whatever the fuel. With half-extents 1 and the
facing edges of tiles 0 and 1 the float 0.9 apart, the contact point `(-838861/8388608, 0,
0)` of tile 1 lies within 0.9 times the half-extent of the contact point `(-1, 0, 0)` of
tile 0, yet tile 1 is not in the list the call on tile 0 returns: the float of `1 * 0.9`
and the float length of the difference are both the float 0.9. -/
theorem GetNeighbours_hangs_or_misses_at_threshold :
    (∀ fuel, returned (GetNeighbours rowEngine [0, 1] fuel thinHeap 0) =
      .error Fault.OutOfFuel) ∧
    returned (GetNeighbours rowEngine [0, 1] 7 thresholdHeap 0) = .ok [] ∧
    contactPointsOf rowEngine 7 (thresholdHeap 0) =
      .ok [⟨-3, -1, 0⟩, ⟨-3, 0, 0⟩, ⟨-3, 1, 0⟩, ⟨-2, -1, 0⟩, ⟨-2, 0, 0⟩, ⟨-2, 1, 0⟩,
        ⟨-1, -1, 0⟩, ⟨-1, 0, 0⟩, ⟨-1, 1, 0⟩] ∧
    contactPointsOf rowEngine 7 (thresholdHeap 1) =
      .ok [⟨-838861 / 8388608, -1, 0⟩, ⟨-838861 / 8388608, 0, 0⟩, ⟨-838861 / 8388608, 1, 0⟩,
        ⟨7549747 / 8388608, -1, 0⟩, ⟨7549747 / 8388608, 0, 0⟩, ⟨7549747 / 8388608, 1, 0⟩,
        ⟨15938355 / 8388608, -1, 0⟩, ⟨15938355 / 8388608, 0, 0⟩,
        ⟨15938355 / 8388608, 1, 0⟩] ∧
    ((⟨-838861 / 8388608, 0, 0⟩ : FVector) - ⟨-1, 0, 0⟩).SizeLess
      ((thresholdHeap 0).BoxExtent.X * (9 / 10)) = true ∧
    rowEngine.TimesDoubleLiteral (thresholdHeap 0).BoxExtent.X (9 / 10) = 7549747 / 8388608 ∧
    rowEngine.VectorSize (rowEngine.VectorMinus ⟨-838861 / 8388608, 0, 0⟩ ⟨-1, 0, 0⟩) =
      7549747 / 8388608 := by
  refine ⟨?_, ?_, ?_, ?_, ?_, ?_, ?_⟩
  · intro fuel
    have hY : truncToInt32 (thinHeap 1).BoxExtent.Y = 0 := by
      set_option maxRecDepth 100000 in with_unfolding_all rfl
    have hX : truncToInt32 (thinHeap 1).BoxExtent.X = 100 := by
      set_option maxRecDepth 100000 in with_unfolding_all rfl
    have hg := GetContactPoints_zero_extent rowEngine (thinHeap 1) fuel rfl hY
      (by rw [hX]; decide) (by rw [hX]; decide)
    have hov : (thinHeap 1).ContactPointsOverride = none := rfl
    have hw : (thinHeap 1).World = (thinHeap 0).World := rfl
    have hN : (thinHeap 0).Neighbours.length = 0 := rfl
    simp only [GetNeighbours, hN, if_true, GetNeighbours_loop, hw, ne_eq, not_true_eq_false,
      and_false, if_false, one_ne_zero, not_false_eq_true, and_self, GetContactPointsAt,
      hov, hg, returned]
  · set_option maxRecDepth 100000 in with_unfolding_all rfl
  · set_option maxRecDepth 100000 in with_unfolding_all rfl
  · set_option maxRecDepth 100000 in with_unfolding_all rfl
  · set_option maxRecDepth 100000 in with_unfolding_all rfl
  · set_option maxRecDepth 100000 in with_unfolding_all rfl
  · set_option maxRecDepth 100000 in with_unfolding_all rfl

/-- Witness of C5 (amended): the first call on the row tile at the origin. -/
theorem GetContactPoints_first_call_nine_points_witness :
    returned (GetContactPoints rowEngine 7 (rowTile 0)) =
      .ok (footprintLattice rowEngine (rowTile 0)
        ⌊(rowTile 0).BoxExtent.X⌋ ⌊(rowTile 0).BoxExtent.Y⌋) :=
  (GetContactPoints_first_call_nine_points rowEngine (rowTile 0) 7 rfl
    (by norm_num [rowTile]) (by norm_num [rowTile]) (le_refl 7)).1

/-- C5 (counterexample). A first `GetContactPoints` call on the unrotated tile at the origin
with box extent `(100, 100, 5)` returns nine points, the four corners among them, and so
not a list of exactly 4 points. -/
theorem GetContactPoints_returns_nine_points :
    returned (GetContactPoints rowEngine 7 (rowTile 0)) =
      .ok [⟨-100, -100, 0⟩, ⟨-100, 0, 0⟩, ⟨-100, 100, 0⟩, ⟨0, -100, 0⟩, ⟨0, 0, 0⟩,
        ⟨0, 100, 0⟩, ⟨100, -100, 0⟩, ⟨100, 0, 0⟩, ⟨100, 100, 0⟩] ∧
    ¬ ∃ pts, returned (GetContactPoints rowEngine 7 (rowTile 0)) = .ok pts ∧
        pts.length = 4 := by
  have h : returned (GetContactPoints rowEngine 7 (rowTile 0)) =
      .ok [⟨-100, -100, 0⟩, ⟨-100, 0, 0⟩, ⟨-100, 100, 0⟩, ⟨0, -100, 0⟩, ⟨0, 0, 0⟩,
        ⟨0, 100, 0⟩, ⟨100, -100, 0⟩, ⟨100, 0, 0⟩, ⟨100, 100, 0⟩] := by
    set_option maxRecDepth 100000 in with_unfolding_all rfl
  refine ⟨h, ?_⟩
  rintro ⟨pts, hp, hlen⟩
  rw [h] at hp
  simp only [Except.ok.injEq] at hp
  subst hp
  simp at hlen

/-- A `GetNeighbours` call that returns leaves every tile's world, placement and returned
contact points as they were, and the returned list is the neighbour cache afterwards. -/
theorem GetNeighbours_ok_state (E : Engine) (Objects : List TileId) (fuel : Nat)
    (heap heap1 : TileHeap) (This : TileId) (L : List TileId)
    (h : GetNeighbours E Objects fuel heap This = .ok (heap1, L)) :
    SamePoints E fuel heap heap1 ∧ (heap1 This).Neighbours = L := by
  unfold GetNeighbours at h
  by_cases hc : (heap This).Neighbours.length = 0
  · simp only [hc, if_true] at h
    split at h
    · exact absurd h (by simp)
    · rename_i hp hl
      simp only [Except.ok.injEq, Prod.mk.injEq] at h
      obtain ⟨hh, hL⟩ := h
      subst hh
      exact ⟨(GetNeighbours_loop_ok E fuel This _ Objects heap hp hl).1, hL⟩
  · simp only [hc, if_false, Except.ok.injEq, Prod.mk.injEq] at h
    obtain ⟨hh, hL⟩ := h
    subst hh
    exact ⟨SamePoints_refl E fuel heap, hL⟩

/-- A `GetNeighbours` call returns when `GetContactPoints` returns on the tile and on every
enumerated tile. -/
theorem GetNeighbours_total (E : Engine) (Objects : List TileId) (fuel : Nat)
    (heap : TileHeap) (This : TileId)
    (hObjs : ∀ T ∈ Objects, ∃ pts, contactPointsOf E fuel (heap T) = .ok pts)
    (hThis : ∃ pts, contactPointsOf E fuel (heap This) = .ok pts) :
    ∃ heap1 L, GetNeighbours E Objects fuel heap This = .ok (heap1, L) := by
  unfold GetNeighbours
  by_cases hc : (heap This).Neighbours.length = 0
  · obtain ⟨hp, hl⟩ := GetNeighbours_loop_total E fuel This
      (E.TimesDoubleLiteral (heap This).BoxExtent.X (9 / 10)) Objects heap hObjs hThis
    exact ⟨hp, (hp This).Neighbours, by simp only [hc, if_true, hl]⟩
  · exact ⟨heap, (heap This).Neighbours, by simp only [hc, if_false]⟩

set_option maxHeartbeats 4000000 in
/-- C10 (failing input). Tile 0 of the row scene is asked for its neighbours while the
world holds only tiles 0 and 2, which are not in contact: the list is empty. Asked again
when tile 1 is enumerated too, the discovery loop runs again and the call returns tile 1,
not the list of the first call. -/
theorem GetNeighbours_recomputes_after_empty_result :
    GetNeighbours_twice rowEngine [0, 2] [0, 1, 2] 7 rowHeap 0 = .ok ([], [1]) := by
  set_option maxRecDepth 100000 in with_unfolding_all rfl

/-- C7 (failing input). Tile 0 is turned by a yaw of 90 degrees and its pawn offset is
`(10, 0, 0)`, so `GetPawnLocation` places its resting position at `(0, 10, 0)`; tile 1 is
its only neighbour. `GetUnobstructedNeighbours` sweeps from `(10, 0, 0)`, the unrotated
offset added to the location, where the post blocks the sweep, and returns no tile; the
sweep between the positions `GetPawnLocation` returns is not blocked and keeps tile 1. -/
theorem GetUnobstructedNeighbours_sweeps_from_unrotated_offset :
    returned (GetNeighbours rowEngine [0, 1] 7 turnedHeap 0) = .ok [1] ∧
    returned (GetUnobstructedNeighbours rowEngine [0, 1] 7 turnedHeap 0 rowCapsule [2]) =
      .ok [] ∧
    GetPawnLocation rowEngine (turnedHeap 0) = ⟨0, 10, 0⟩ ∧
    unobstructedBetweenPawnLocations rowEngine turnedHeap 0 rowCapsule [1] = [1] := by
  refine ⟨?_, ?_, ?_, ?_⟩
  · set_option maxRecDepth 100000 in with_unfolding_all rfl
  · set_option maxRecDepth 100000 in with_unfolding_all rfl
  · set_option maxRecDepth 100000 in with_unfolding_all rfl
  · set_option maxRecDepth 100000 in with_unfolding_all rfl

/-! ### The backpointers after a range search -/

theorem leDistance_refl (d : Option ℚ) : leDistance d d = true := by
  cases d <;> simp [leDistance]

theorem leDistance_trans (a b c : Option ℚ) (h1 : leDistance a b = true)
    (h2 : leDistance b c = true) : leDistance a c = true := by
  cases a <;> cases b <;> cases c <;> simp_all [leDistance]
  exact le_trans h1 h2

theorem leDistance_total (a b : Option ℚ) (h : ¬ leDistance a b = true) :
    leDistance b a = true := by
  cases a <;> cases b <;> simp_all [leDistance]
  exact le_of_lt h

theorem TilesInRange_select_none (heap : TileHeap) (L : List TileId)
    (h : TilesInRange_select heap L = none) : ∀ t, t ∈ L → (heap t).Visited = true := by
  induction L with
  | nil => intro t ht; exact absurd ht (List.not_mem_nil t)
  | cons T rest ih =>
    unfold TilesInRange_select at h
    by_cases hv : (heap T).Visited = true
    · rw [if_pos hv] at h
      intro t ht
      rcases List.mem_cons.mp ht with rfl | ht
      · exact hv
      · exact ih h t ht
    · rw [if_neg hv] at h
      split at h
      · exact absurd h (by simp)
      · split_ifs at h

theorem TilesInRange_select_some (heap : TileHeap) (L : List TileId) (c : TileId)
    (h : TilesInRange_select heap L = some c) :
    c ∈ L ∧ (heap c).Visited = false ∧
    ∀ u, u ∈ L → (heap u).Visited = false →
      leDistance (heap c).Distance (heap u).Distance = true := by
  induction L generalizing c with
  | nil => simp [TilesInRange_select] at h
  | cons T rest ih =>
    unfold TilesInRange_select at h
    by_cases hv : (heap T).Visited = true
    · rw [if_pos hv] at h
      obtain ⟨hm, hc, hall⟩ := ih c h
      refine ⟨List.mem_cons_of_mem _ hm, hc, ?_⟩
      intro u hu huv
      rcases List.mem_cons.mp hu with rfl | hu
      · rw [hv] at huv
        exact absurd huv (by simp)
      · exact hall u hu huv
    · rw [if_neg hv] at h
      have hvf : (heap T).Visited = false := by simpa using hv
      split at h
      · rename_i hnone
        simp only [Option.some.injEq] at h
        subst h
        refine ⟨List.mem_cons_self _ _, hvf, ?_⟩
        intro u hu huv
        rcases List.mem_cons.mp hu with rfl | hu
        · exact leDistance_refl _
        · have := TilesInRange_select_none heap rest hnone u hu
          rw [this] at huv
          exact absurd huv (by simp)
      · rename_i B hB
        obtain ⟨hm, hc, hall⟩ := ih B hB
        by_cases hle : leDistance (heap T).Distance (heap B).Distance = true
        · rw [if_pos hle] at h
          simp only [Option.some.injEq] at h
          subst h
          refine ⟨List.mem_cons_self _ _, hvf, ?_⟩
          intro u hu huv
          rcases List.mem_cons.mp hu with rfl | hu
          · exact leDistance_refl _
          · exact leDistance_trans _ _ _ hle (hall u hu huv)
        · rw [if_neg hle] at h
          simp only [Option.some.injEq] at h
          subst h
          refine ⟨List.mem_cons_of_mem _ hm, hc, ?_⟩
          intro u hu huv
          rcases List.mem_cons.mp hu with rfl | hu
          · exact leDistance_total _ _ hle
          · exact hall u hu huv

theorem BackChain_congr (heap heap1 : TileHeap) (Start v : TileId) (R : List TileId)
    (hc : BackChain heap Start v R)
    (hsame : ∀ x, x ∈ R → (heap1 x).Backpointer = (heap x).Backpointer) :
    BackChain heap1 Start v R := by
  induction hc with
  | root => exact BackChain.root
  | step v p R hbp _ ih =>
    refine BackChain.step v p R ?_ (ih (fun x hx => hsame x (List.mem_cons_of_mem _ hx)))
    rw [hsame v (List.mem_cons_self _ _)]
    exact hbp

theorem BackChain_walk (heap : TileHeap) (Start v : TileId) (R : List TileId)
    (hc : BackChain heap Start v R) (hroot : (heap Start).Backpointer = none)
    (fuel : Nat) (Path : List TileId) (hfuel : R.length + 1 ≤ fuel) :
    CreatePath_walk heap fuel (some v) Path = .ok (Path ++ R) := by
  induction hc generalizing fuel Path with
  | root =>
    obtain ⟨n, rfl⟩ : ∃ n, fuel = n + 2 := ⟨fuel - 2, by simp at hfuel; omega⟩
    simp [CreatePath_walk, hroot]
  | step v p R hbp _ ih =>
    obtain ⟨n, rfl⟩ : ∃ n, fuel = n + 1 := ⟨fuel - 1, by simp at hfuel; omega⟩
    rw [CreatePath_walk, hbp, ih n (Path ++ [v]) (by simp at hfuel ⊢; omega)]
    simp

theorem BackChain_shape (heap : TileHeap) (Start v : TileId) (R : List TileId)
    (hc : BackChain heap Start v R) :
    R.head? = some v ∧ R.getLast? = some Start ∧
    List.Chain' (fun a b => (heap a).Backpointer = some b) R := by
  induction hc with
  | root => simp
  | step v p R hbp hR ih =>
    obtain ⟨hh, hl, hch⟩ := ih
    refine ⟨rfl, ?_, ?_⟩
    · cases R with
      | nil => simp at hh
      | cons a rest => simpa [List.getLast?_cons_cons] using hl
    · cases R with
      | nil => simp at hh
      | cons a rest =>
        simp only [List.head?_cons, Option.some.injEq] at hh
        subst hh
        exact List.Chain'.cons hbp hch

theorem SearchInv_mark_visited (Start cur : TileId) (heap : TileHeap) (InRange : List TileId)
    (hI : SearchInv Start heap InRange)
    (hsel : TilesInRange_select heap InRange = some cur) :
    ∃ dc, RelaxInv Start cur dc
      (Function.update heap cur { heap cur with Visited := true }) InRange := by
  obtain ⟨hm, hcv, hmin⟩ := TilesInRange_select_some heap InRange cur hsel
  obtain ⟨dc, hdc⟩ := hI.mem_finite cur hm
  have hD : ∀ x, ((Function.update heap cur { heap cur with Visited := true }) x).Distance =
      (heap x).Distance := by
    intro x
    by_cases hx : x = cur
    · subst hx; simp
    · simp [Function.update_noteq hx]
  have hB : ∀ x, ((Function.update heap cur { heap cur with Visited := true }) x).Backpointer =
      (heap x).Backpointer := by
    intro x
    by_cases hx : x = cur
    · subst hx; simp
    · simp [Function.update_noteq hx]
  have hC : ∀ x, ((Function.update heap cur { heap cur with Visited := true }) x).Cost =
      (heap x).Cost := by
    intro x
    by_cases hx : x = cur
    · subst hx; simp
    · simp [Function.update_noteq hx]
  have hV : ∀ x, ((Function.update heap cur { heap cur with Visited := true }) x).Visited = true ↔
      (x = cur ∨ (heap x).Visited = true) := by
    intro x
    by_cases hx : x = cur
    · subst hx; simp
    · simp [Function.update_noteq hx, hx]
  have hVf : ∀ x, ((Function.update heap cur { heap cur with Visited := true }) x).Visited = false →
      x ≠ cur ∧ (heap x).Visited = false := by
    intro x hxf
    by_cases hx : x = cur
    · subst hx; simp at hxf
    · exact ⟨hx, by simpa [Function.update_noteq hx] using hxf⟩
  refine ⟨dc, ⟨⟨?_, ?_, ?_, ?_, ?_, ?_, ?_, ?_, ?_, ?_⟩, ?_, ?_, ?_⟩⟩
  · intro t; rw [hC]; exact hI.cost_nonneg t
  · rw [hB]; exact hI.start_bp
  · rw [hD]; exact hI.start_dist
  · intro t d h; rw [hD] at h; exact hI.dist_nonneg t d h
  · intro t d h; rw [hD] at h; exact hI.finite_mem t d h
  · intro t ht; obtain ⟨d, hd⟩ := hI.mem_finite t ht; exact ⟨d, by rw [hD]; exact hd⟩
  · intro v hv
    rcases (hV v).mp hv with rfl | hv
    · exact ⟨dc, by rw [hD]; exact hdc⟩
    · obtain ⟨d, hd⟩ := hI.visited_finite v hv
      exact ⟨d, by rw [hD]; exact hd⟩
  · intro v u dv du hv hu hdv hdu
    rw [hD] at hdv hdu
    obtain ⟨hune, huf⟩ := hVf u hu
    rcases (hV v).mp hv with rfl | hv
    · have := hmin u (hI.finite_mem u du hdu) huf
      rw [hdv, hdu] at this
      simpa [leDistance] using this
    · exact hI.visited_le v u dv du hv huf hdv hdu
  · intro v hv
    have old : ∀ w, (heap w).Visited = true →
        ∃ R, BackChain (Function.update heap cur { heap cur with Visited := true }) Start w R ∧
          ∀ x, x ∈ R →
            ((Function.update heap cur { heap cur with Visited := true }) x).Visited = true := by
      intro w hw
      obtain ⟨R, hR, hall⟩ := hI.visited_chain w hw
      exact ⟨R, BackChain_congr heap _ Start w R hR (fun x _ => hB x),
        fun x hx => (hV x).mpr (Or.inr (hall x hx))⟩
    rcases (hV v).mp hv with rfl | hv
    · rcases hI.mem_bp v hm with rfl | ⟨p, hp, hpv⟩
      · exact ⟨[v], BackChain.root, fun x hx => by
          rw [List.mem_singleton.mp hx]; exact (hV v).mpr (Or.inl rfl)⟩
      · obtain ⟨R, hR, hall⟩ := old p hpv
        refine ⟨v :: R, BackChain.step v p R (by rw [hB]; exact hp) hR, ?_⟩
        intro x hx
        rcases List.mem_cons.mp hx with rfl | hx
        · exact (hV x).mpr (Or.inl rfl)
        · exact hall x hx
    · exact old v hv
  · intro t ht
    rcases hI.mem_bp t ht with rfl | ⟨p, hp, hpv⟩
    · exact Or.inl rfl
    · exact Or.inr ⟨p, by rw [hB]; exact hp, (hV p).mpr (Or.inr hpv)⟩
  · exact (hV cur).mpr (Or.inl rfl)
  · rw [hD]; exact hdc
  · intro v hv
    rcases (hV v).mp hv with rfl | hv
    · exact ⟨dc, by rw [hD]; exact hdc, le_refl dc⟩
    · obtain ⟨d, hd⟩ := hI.visited_finite v hv
      exact ⟨d, by rw [hD]; exact hd, hI.visited_le v cur d dc hv hcv hd hdc⟩

theorem RelaxInv_update (Start cur N : TileId) (dc : ℚ) (heap : TileHeap)
    (InRange : List TileId) (hR : RelaxInv Start cur dc heap InRange)
    (hlt : ltDistance (dc + (heap N).Cost) (heap N).Distance = true) :
    RelaxInv Start cur dc
      (Function.update heap N
        { heap N with Distance := some (dc + (heap N).Cost), Backpointer := some cur })
      (if InRange.contains N then InRange else InRange ++ [N]) := by
  have hI := hR.inv
  have hdc0 : 0 ≤ dc := hI.dist_nonneg cur dc hR.cur_dist
  have hT : dc ≤ dc + (heap N).Cost := by linarith [hI.cost_nonneg N]
  have hNv : (heap N).Visited = false := by
    by_contra hcon
    have hv : (heap N).Visited = true := by simpa using hcon
    obtain ⟨dn, hdn, hle⟩ := hR.visited_le_cur N hv
    rw [hdn] at hlt
    simp only [ltDistance, decide_eq_true_eq] at hlt
    linarith
  have hNS : N ≠ Start := by
    rintro rfl
    rw [hI.start_dist] at hlt
    simp only [ltDistance, decide_eq_true_eq] at hlt
    linarith
  have hNc : N ≠ cur := by
    rintro rfl
    rw [hR.cur_visited] at hNv
    exact absurd hNv (by simp)
  have hne : ∀ x, x ≠ N → (Function.update heap N
      { heap N with Distance := some (dc + (heap N).Cost), Backpointer := some cur }) x =
      heap x := fun x hx => Function.update_noteq hx _ _
  have hV : ∀ x, ((Function.update heap N
      { heap N with Distance := some (dc + (heap N).Cost), Backpointer := some cur }) x).Visited =
      (heap x).Visited := by
    intro x
    by_cases hx : x = N
    · subst hx; simp
    · rw [hne x hx]
  have hC : ∀ x, ((Function.update heap N
      { heap N with Distance := some (dc + (heap N).Cost), Backpointer := some cur }) x).Cost =
      (heap x).Cost := by
    intro x
    by_cases hx : x = N
    · subst hx; simp
    · rw [hne x hx]
  have hDN : ((Function.update heap N
      { heap N with Distance := some (dc + (heap N).Cost), Backpointer := some cur }) N).Distance =
      some (dc + (heap N).Cost) := by simp
  have hBN : ((Function.update heap N
      { heap N with Distance := some (dc + (heap N).Cost), Backpointer := some cur }) N).Backpointer =
      some cur := by simp
  have hvis_ne : ∀ x, (heap x).Visited = true → x ≠ N := by
    rintro x hx rfl
    rw [hx] at hNv
    exact absurd hNv (by simp)
  have hsub : ∀ t, t ∈ InRange → t ∈ (if InRange.contains N then InRange else InRange ++ [N]) := by
    intro t ht
    split_ifs
    · exact ht
    · exact List.mem_append_left _ ht
  have hNmem : N ∈ (if InRange.contains N then InRange else InRange ++ [N]) := by
    split_ifs with hcn
    · simpa using hcn
    · simp
  have hmem : ∀ t, t ∈ (if InRange.contains N then InRange else InRange ++ [N]) →
      t = N ∨ t ∈ InRange := by
    intro t ht
    split_ifs at ht
    · exact Or.inr ht
    · rcases List.mem_append.mp ht with h | h
      · exact Or.inr h
      · exact Or.inl (List.mem_singleton.mp h)
  refine ⟨⟨?_, ?_, ?_, ?_, ?_, ?_, ?_, ?_, ?_, ?_⟩, ?_, ?_, ?_⟩
  · intro t; rw [hC]; exact hI.cost_nonneg t
  · rw [hne Start (Ne.symm hNS)]; exact hI.start_bp
  · rw [hne Start (Ne.symm hNS)]; exact hI.start_dist
  · intro t d h
    by_cases ht : t = N
    · subst ht
      rw [hDN] at h
      simp only [Option.some.injEq] at h
      linarith
    · rw [hne t ht] at h; exact hI.dist_nonneg t d h
  · intro t d h
    by_cases ht : t = N
    · subst ht; exact hNmem
    · rw [hne t ht] at h; exact hsub t (hI.finite_mem t d h)
  · intro t ht
    by_cases htN : t = N
    · subst htN; exact ⟨_, hDN⟩
    · rcases hmem t ht with h | h
      · exact absurd h htN
      · rw [hne t htN]; exact hI.mem_finite t h
  · intro v hv
    rw [hV] at hv
    rw [hne v (hvis_ne v hv)]
    exact hI.visited_finite v hv
  · intro v u dv du hv hu hdv hdu
    rw [hV] at hv hu
    rw [hne v (hvis_ne v hv)] at hdv
    by_cases huN : u = N
    · subst huN
      rw [hDN] at hdu
      simp only [Option.some.injEq] at hdu
      obtain ⟨dv1, hdv1, hle⟩ := hR.visited_le_cur v hv
      rw [hdv] at hdv1
      simp only [Option.some.injEq] at hdv1
      subst hdv1
      linarith
    · rw [hne u huN] at hdu
      exact hI.visited_le v u dv du hv hu hdv hdu
  · intro v hv
    rw [hV] at hv
    obtain ⟨R, hch, hall⟩ := hI.visited_chain v hv
    refine ⟨R, BackChain_congr heap _ Start v R hch ?_, ?_⟩
    · intro x hx
      rw [hne x (hvis_ne x (hall x hx))]
    · intro x hx
      rw [hV]
      exact hall x hx
  · intro t ht
    by_cases htN : t = N
    · subst htN
      exact Or.inr ⟨cur, hBN, by rw [hV]; exact hR.cur_visited⟩
    · rcases hmem t ht with h | h
      · exact absurd h htN
      · rcases hI.mem_bp t h with rfl | ⟨p, hp, hpv⟩
        · exact Or.inl rfl
        · exact Or.inr ⟨p, by rw [hne t htN]; exact hp, by rw [hV]; exact hpv⟩
  · rw [hV]; exact hR.cur_visited
  · rw [hne cur (Ne.symm hNc)]; exact hR.cur_dist
  · intro v hv
    rw [hV] at hv
    rw [hne v (hvis_ne v hv)]
    exact hR.visited_le_cur v hv

theorem RelaxInv_relax (Start cur : TileId) (dc Range : ℚ) (Ns : List TileId)
    (heap : TileHeap) (InRange : List TileId) (hR : RelaxInv Start cur dc heap InRange) :
    RelaxInv Start cur dc (TilesInRange_relax Range cur (heap, InRange) Ns).1
      (TilesInRange_relax Range cur (heap, InRange) Ns).2 := by
  induction Ns generalizing heap InRange with
  | nil => exact hR
  | cons N rest ih =>
    unfold TilesInRange_relax
    rw [hR.cur_dist]
    simp only
    by_cases hcond : (ltDistance (dc + (heap N).Cost) (heap N).Distance &&
        decide (dc + (heap N).Cost ≤ Range)) = true
    · rw [if_pos hcond]
      simp only [Bool.and_eq_true] at hcond
      exact ih _ _ (RelaxInv_update Start cur N dc heap InRange hR hcond.1)
    · rw [if_neg hcond]
      exact ih _ _ hR

theorem SearchInv_loop (NeighboursOf : TileId → List TileId) (Range : ℚ) (Start : TileId)
    (fuel : Nat) (heap heap1 : TileHeap) (InRange InRange1 : List TileId)
    (hI : SearchInv Start heap InRange)
    (h : TilesInRange_loop NeighboursOf Range fuel (heap, InRange) = .ok (heap1, InRange1)) :
    SearchInv Start heap1 InRange1 ∧ ∀ t, t ∈ InRange1 → (heap1 t).Visited = true := by
  induction fuel generalizing heap InRange with
  | zero => exact absurd h (by simp [TilesInRange_loop])
  | succ n ih =>
    unfold TilesInRange_loop at h
    cases hsel : TilesInRange_select heap InRange with
    | none =>
      rw [hsel] at h
      simp only [Except.ok.injEq, Prod.mk.injEq] at h
      obtain ⟨hh, hr⟩ := h
      subst hh
      subst hr
      exact ⟨hI, TilesInRange_select_none heap InRange hsel⟩
    | some cur =>
      rw [hsel] at h
      simp only at h
      obtain ⟨dc, hR⟩ := SearchInv_mark_visited Start cur heap InRange hI hsel
      have hR2 := RelaxInv_relax Start cur dc Range (NeighboursOf cur) _ _ hR
      exact ih _ _ hR2.inv h

theorem SearchInv_init (heap : TileHeap) (Start : TileId) (hcost : ∀ t, 0 ≤ (heap t).Cost) :
    SearchInv Start
      (Function.update (fun T => ResetPath (heap T)) Start
        { ResetPath (heap Start) with Distance := some 0 }) [Start] := by
  have hV : ∀ x, ((Function.update (fun T => ResetPath (heap T)) Start
      { ResetPath (heap Start) with Distance := some 0 }) x).Visited = false := by
    intro x
    by_cases hx : x = Start
    · subst hx; simp [ResetPath]
    · simp [Function.update_noteq hx, ResetPath]
  have hD : ∀ x d, ((Function.update (fun T => ResetPath (heap T)) Start
      { ResetPath (heap Start) with Distance := some 0 }) x).Distance = some d →
      x = Start ∧ d = 0 := by
    intro x d h
    by_cases hx : x = Start
    · subst hx
      simp at h
      exact ⟨rfl, h.symm⟩
    · simp [Function.update_noteq hx, ResetPath] at h
  have noV : ∀ x, ¬ ((Function.update (fun T => ResetPath (heap T)) Start
      { ResetPath (heap Start) with Distance := some 0 }) x).Visited = true := by
    intro x hx
    rw [hV x] at hx
    exact absurd hx (by simp)
  refine ⟨?_, ?_, ?_, ?_, ?_, ?_, ?_, ?_, ?_, ?_⟩
  · intro t
    by_cases ht : t = Start
    · subst ht; simpa [ResetPath] using hcost t
    · simpa [Function.update_noteq ht, ResetPath] using hcost t
  · simp [ResetPath]
  · simp
  · intro t d h
    rw [(hD t d h).2]
  · intro t d h
    rw [(hD t d h).1]
    exact List.mem_singleton_self _
  · intro t ht
    rw [List.mem_singleton.mp ht]
    exact ⟨0, by simp⟩
  · intro v hv; exact absurd hv (noV v)
  · intro v u dv du hv; exact absurd hv (noV v)
  · intro v hv; exact absurd hv (noV v)
  · intro t ht
    exact Or.inl (List.mem_singleton.mp ht)

/-- After the range search every tile in range is at the head of a chain of backpointers
that ends at the start tile, whose own backpointer is none. -/
theorem TilesInRange_spec_chain (NeighboursOf : TileId → List TileId) (fuel : Nat)
    (heap heap1 : TileHeap) (Start : TileId) (Range : ℚ) (InRange : List TileId)
    (Target : TileId) (hcost : ∀ t, 0 ≤ (heap t).Cost)
    (hsearch : TilesInRange_spec NeighboursOf fuel heap Start Range = .ok (heap1, InRange))
    (hT : Target ∈ InRange) :
    (heap1 Start).Backpointer = none ∧ ∃ R, BackChain heap1 Start Target R := by
  obtain ⟨hI, hall⟩ := SearchInv_loop NeighboursOf Range Start fuel _ heap1 _ InRange
    (SearchInv_init heap Start hcost) hsearch
  obtain ⟨R, hR, _⟩ := hI.visited_chain Target (hall Target hT)
  exact ⟨hI.start_bp, R, hR⟩

/-- C9. After a range search from `Start` over tiles of non-negative cost, for every target
in the in-range set the backpointer walk of `CreatePath` terminates: with enough fuel it
returns a list `Walked`; the reversed list, which is the path, begins with `Start`, ends
with the target, and each element after the first has the element before it as its
`Backpointer`. -/
theorem CreatePath_walk_after_range_search (NeighboursOf : TileId → List TileId) (fuel : Nat)
    (heap heap1 : TileHeap) (Start : TileId) (Range : ℚ) (InRange : List TileId)
    (Target : TileId) (hcost : ∀ t, 0 ≤ (heap t).Cost)
    (hsearch : TilesInRange_spec NeighboursOf fuel heap Start Range = .ok (heap1, InRange))
    (hT : Target ∈ InRange) :
    ∃ Walked : List TileId,
      (∀ fuel1, Walked.length + 1 ≤ fuel1 →
        CreatePath_walk heap1 fuel1 (some Target) [] = .ok Walked) ∧
      Walked.reverse.head? = some Start ∧
      Walked.reverse.getLast? = some Target ∧
      List.Chain' (fun a b => (heap1 b).Backpointer = some a) Walked.reverse := by
  obtain ⟨hroot, R, hR⟩ := TilesInRange_spec_chain NeighboursOf fuel heap heap1 Start Range
    InRange Target hcost hsearch hT
  obtain ⟨hh, hl, hch⟩ := BackChain_shape heap1 Start Target R hR
  refine ⟨R, ?_, ?_, ?_, ?_⟩
  · intro fuel1 hf
    have := BackChain_walk heap1 Start Target R hR hroot fuel1 [] hf
    simpa using this
  · rw [List.head?_reverse]; exact hl
  · rw [List.getLast?_reverse]; exact hh
  · rw [List.chain'_reverse]
    exact hch

/-- Witness of C9 on the row scene: the search from tile 0 with range 2 reaches tiles 0, 1
and 2, and the walk from tile 2 returns a list whose reverse begins with tile 0 and ends
with tile 2. -/
theorem CreatePath_walk_after_range_search_witness :
    ∃ heap1 Walked,
      TilesInRange_spec rowNeighbours 10 rowHeap 0 2 = .ok (heap1, [0, 1, 2]) ∧
      CreatePath_walk heap1 (Walked.length + 1) (some 2) [] = .ok Walked ∧
      Walked.reverse.head? = some 0 ∧ Walked.reverse.getLast? = some 2 := by
  obtain ⟨heap1, h⟩ : ∃ heap1,
      TilesInRange_spec rowNeighbours 10 rowHeap 0 2 = .ok (heap1, [0, 1, 2]) :=
    ⟨_, by with_unfolding_all rfl⟩
  obtain ⟨Walked, hw, hh, hl, _⟩ :=
    CreatePath_walk_after_range_search rowNeighbours 10 rowHeap heap1 0 2 [0, 1, 2] 2
      (fun t => by simp [rowHeap, rowTile]) h (by simp)
  exact ⟨heap1, Walked, h, hw _ (le_refl _), hh, hl⟩

/-- The test `SizeLess` is the comparison of the Euclidean length with the bound. -/
theorem SizeLess_iff_sqrt_lt (v : FVector) (m : ℚ) :
    v.SizeLess m = true ↔
      Real.sqrt ((v.X : ℝ) * v.X + (v.Y : ℝ) * v.Y + (v.Z : ℝ) * v.Z) < (m : ℝ) := by
  unfold FVector.SizeLess
  rw [decide_eq_true_iff]
  have hq : (v.X * v.X + v.Y * v.Y + v.Z * v.Z < m * m) ↔
      ((v.X : ℝ) * v.X + (v.Y : ℝ) * v.Y + (v.Z : ℝ) * v.Z < (m : ℝ) ^ 2) := by
    rw [pow_two]
    exact_mod_cast Iff.rfl
  by_cases hm : 0 < m
  · have hmR : (0 : ℝ) < (m : ℝ) := by exact_mod_cast hm
    rw [Real.sqrt_lt' hmR, ← hq]
    exact ⟨fun h => h.2, fun h => ⟨hm, h⟩⟩
  · have hmR : (m : ℝ) ≤ 0 := by exact_mod_cast not_lt.mp hm
    constructor
    · intro h; exact absurd h.1 hm
    · intro h
      have := Real.sqrt_nonneg ((v.X : ℝ) * v.X + (v.Y : ℝ) * v.Y + (v.Z : ℝ) * v.Z)
      linarith

end NavGrid
